import Mathlib

/-!
# ftracker: training metrics (distance, mean speed, spent calories, report)

Shallow embedding of `src/ftracker.go`, in two layers.

Exact layer.  A Go `float64` is modelled by `Float64`: an exact rational for a finite
value, plus the IEEE-754 special values `+Inf`, `-Inf` and `NaN` with their arithmetic
rules.  Finite arithmetic is exact there: no binary rounding, overflow, underflow or sign
of zero.  The formulas of the functions and the dispatch on the label are stated on it.

Binary64 layer.  A Go `float64` is modelled by `Binary64`: sign and magnitude of a finite
value (zero is signed), a signed infinity, or NaN; every operation rounds to nearest, ties
to even, with 53 significant bits, gradual underflow below `2 ^ (-1022)` and overflow to
an infinity at `2 ^ 1024`.  The statements that depend on rounding, overflow, underflow,
the sign of zero or the rendering of a number are stated on it.

A Go `int` is modelled by `Int`; the program only converts it to `float64`.
-/

namespace Ftracker

/-! ## The float64 model -/

/-- A float64 value: a finite (exact) value, a signed infinity, or NaN. -/
inductive Float64 where
  | fin (q : ℚ)
  | inf (neg : Bool)
  | nan
  deriving DecidableEq

namespace Float64

/-- Sign bit of a finite value (zero counts as positive). -/
def sgn (q : ℚ) : Bool := decide (q < 0)

/-- Go `x + y` on float64. -/
def add : Float64 → Float64 → Float64
  | fin a, fin b => fin (a + b)
  | fin _, inf s => inf s
  | inf s, fin _ => inf s
  | inf s, inf t => if s = t then inf s else nan
  | nan, _ => nan
  | _, nan => nan

/-- Go `x * y` on float64. -/
def mul : Float64 → Float64 → Float64
  | fin a, fin b => fin (a * b)
  | fin a, inf s => if a = 0 then nan else inf (xor (sgn a) s)
  | inf s, fin b => if b = 0 then nan else inf (xor s (sgn b))
  | inf s, inf t => inf (xor s t)
  | nan, _ => nan
  | _, nan => nan

/-- Go `x / y` on float64: a zero divisor gives an infinity, or NaN for `0 / 0`. -/
def div : Float64 → Float64 → Float64
  | fin a, fin b =>
      if b = 0 then (if a = 0 then nan else inf (sgn a)) else fin (a / b)
  | fin _, inf _ => fin 0
  | inf s, fin b => inf (xor s (sgn b))
  | inf _, inf _ => nan
  | nan, _ => nan
  | _, nan => nan

instance : Add Float64 := ⟨add⟩
instance : Mul Float64 := ⟨mul⟩
instance : Div Float64 := ⟨div⟩

/-- Go `x == 0` on float64: false for the infinities and for NaN. -/
def isZero : Float64 → Bool
  | fin q => decide (q = 0)
  | _ => false

/-- A value that is neither an infinity nor NaN. -/
def isFinite : Float64 → Bool
  | fin _ => true
  | _ => false

end Float64

section

open Float64 (fin inf nan)

/-- Go conversion `float64(n)` of an `int`. -/
def float64 (n : Int) : Float64 := fin n

/-- Go `math.Pow(x, y)` for a natural exponent `y`. -/
def Pow (x : Float64) (y : ℕ) : Float64 :=
  if y = 0 then fin 1
  else match x with
    | fin q => fin (q ^ y)
    | inf s => inf (s && decide (y % 2 = 1))
    | nan => nan

/-! ## Constants -/

/-- Mean step length, metres. -/
def lenStep : Float64 := fin 0.65
/-- Metres in a kilometre. -/
def mInKm : Float64 := fin 1000
/-- Minutes in an hour. -/
def minInH : Float64 := fin 60
/-- Coefficient converting km/h to m/s. -/
def kmhInMsec : Float64 := fin 0.278
/-- Centimetres in a metre. -/
def cmInM : Float64 := fin 100

/-- Mean-speed multiplier of the running formula. -/
def runningCaloriesMeanSpeedMultiplier : Float64 := fin 18
/-- Mean-speed shift constant of the running formula. -/
def runningCaloriesMeanSpeedShift : Float64 := fin 1.79
/-- Weight multiplier of the walking formula. -/
def walkingCaloriesWeightMultiplier : Float64 := fin 0.035
/-- Height multiplier of the walking formula. -/
def walkingSpeedHeightMultiplier : Float64 := fin 0.029
/-- Mean-speed shift of the swimming formula. -/
def swimmingCaloriesMeanSpeedShift : Float64 := fin 1.1
/-- Weight multiplier of the swimming formula. -/
def swimmingCaloriesWeightMultiplier : Float64 := fin 2

/-! ## The computations -/

/-- Go `distance`: `float64(action) * lenStep / mInKm`. -/
def distance (action : Int) : Float64 :=
  float64 action * lenStep / mInKm

/-- Go `meanSpeed`: `0` for a zero duration, else `distance / duration`. -/
def meanSpeed (_action : Int) (distance duration : Float64) : Float64 :=
  if duration.isZero then fin 0
  else distance / duration

/-- Go `RunningSpentCalories`. -/
def RunningSpentCalories (speed duration weight : Float64) : Float64 :=
  (runningCaloriesMeanSpeedMultiplier * speed * runningCaloriesMeanSpeedShift)
    * weight / mInKm * duration * minInH

/-- Go `WalkingSpentCalories`. -/
def WalkingSpentCalories (speed duration weight height : Float64) : Float64 :=
  (walkingCaloriesWeightMultiplier * weight
    + (Pow (speed / kmhInMsec) 2 / height) * walkingSpeedHeightMultiplier)
    * duration * minInH

/-- Go `swimmingMeanSpeed`. -/
def swimmingMeanSpeed (lengthPool countPool : Int) (duration : Float64) : Float64 :=
  if duration.isZero then fin 0
  else float64 lengthPool * float64 countPool / mInKm / duration

/-- Go `SwimmingSpentCalories`. -/
def SwimmingSpentCalories (speed duration weight : Float64) : Float64 :=
  (speed + swimmingCaloriesMeanSpeedShift) * swimmingCaloriesWeightMultiplier
    * weight * duration

/-! ## The report -/

/-- Nearest natural number to the non-negative fraction `n / d`, an exact half going to
the even neighbour (the rounding of Go `strconv` on the exact decimal expansion). -/
def roundHalfEven (n d : ℕ) : ℕ :=
  let k := n / d
  let r := n % d
  if 2 * r < d then k
  else if d < 2 * r then k + 1
  else if k % 2 = 0 then k else k + 1

/-- Two decimal digits of a number below 100. -/
def twoDigits (n : ℕ) : String :=
  if n < 10 then "0" ++ Nat.repr n else Nat.repr n

/-- Go verb `%.2f`: fixed point with two decimals; `+Inf`, `-Inf` and `NaN` for the
special values. -/
def fmtF2 : Float64 → String
  | fin q =>
      let h := roundHalfEven (q.num.natAbs * 100) q.den
      (if q < 0 then "-" else "") ++ Nat.repr (h / 100) ++ "." ++ twoDigits (h % 100)
  | inf false => "+Inf"
  | inf true => "-Inf"
  | nan => "NaN"

/-- The `fmt.Sprintf` call of `ShowTrainingInfo`: the five-line template, the label with
`%s` and the four numbers with `%.2f`. -/
def Sprintf (trainingType : String) (duration distance speed calories : Float64) : String :=
  "Тип тренировки: " ++ trainingType
    ++ "\nДлительность: " ++ fmtF2 duration ++ " ч."
    ++ "\nДистанция: " ++ fmtF2 distance ++ " км."
    ++ "\nСкорость: " ++ fmtF2 speed ++ " км/ч"
    ++ "\nСожгли калорий: " ++ fmtF2 calories ++ "\n"

/-- The `switch` of `ShowTrainingInfo`: the speed and the calories of the branch the label
selects, `none` for the `default` branch. -/
def trainingSwitch (action : Int) (trainingType : String) (distance duration weight height : Float64)
    (lengthPool countPool : Int) : Option (Float64 × Float64) :=
  if trainingType = "Бег" then
    let speed := meanSpeed action distance duration
    let calories := RunningSpentCalories speed duration weight
    some (speed, calories)
  else if trainingType = "Ходьба" then
    let speed := meanSpeed action distance duration
    let calories := WalkingSpentCalories speed duration weight height
    some (speed, calories)
  else if trainingType = "Плавание" then
    let speed := swimmingMeanSpeed lengthPool countPool duration
    let calories := SwimmingSpentCalories speed duration weight
    some (speed, calories)
  else none

/-- Go `ShowTrainingInfo`. -/
def ShowTrainingInfo (action : Int) (trainingType : String) (duration weight height : Float64)
    (lengthPool countPool : Int) : String :=
  let dist := distance action
  match trainingSwitch action trainingType dist duration weight height lengthPool countPool with
  | none => "неизвестный тип тренировки"
  | some (speed, calories) => Sprintf trainingType duration dist speed calories

end

/-! ## IEEE-754 binary64 arithmetic

The computations above are exact.  The statements that depend on rounding, overflow,
underflow or the sign of zero are made on the second embedding below, in which a float64
is a `Binary64` and every operation rounds to nearest, ties to even. -/

/-- A binary64 value: a finite number given by sign and magnitude (`mag ≥ 0`; zero is
signed), a signed infinity, or NaN. -/
inductive Binary64 where
  | num (neg : Bool) (mag : ℚ)
  | inf (neg : Bool)
  | nan
  deriving DecidableEq

/-- Number of halvings that bring `n` below `2`, at most `fuel` of them. -/
def halvings : ℕ → ℕ → ℕ
  | 0, _ => 0
  | fuel + 1, n => if n < 2 then 0 else halvings fuel (n / 2) + 1

/-- Position of the leading bit of `n`: the integer part of its binary logarithm (`0` for
`n = 0`). -/
def floorLog2 (n : ℕ) : ℕ := halvings n n

/-- The binary exponent of the positive fraction `n / d`: the integer `e` with
`2 ^ e ≤ n / d < 2 ^ (e + 1)`. -/
def binExp (n d : ℕ) : Int :=
  let e0 : Int := (floorLog2 n : Int) - (floorLog2 d : Int)
  if d * 2 ^ e0.toNat ≤ n * 2 ^ (-e0).toNat then e0 else e0 - 1

/-- The magnitude with 53 significant bits nearest to `|q|`, ties to even.  With `sub`
the spacing is never below `2 ^ (-1074)`, as for the subnormal numbers of binary64;
without it the exponent is unbounded. -/
def roundMag (sub : Bool) (q : ℚ) : ℚ :=
  if q = 0 then 0
  else
    let n := q.num.natAbs
    let d := q.den
    let p : Int := if sub then max (binExp n d - 52) (-1074) else binExp n d - 52
    let m := roundHalfEven (n * 2 ^ (-p).toNat) (d * 2 ^ p.toNat)
    ((m * 2 ^ p.toNat : ℕ) : ℚ) / ((2 ^ (-p).toNat : ℕ) : ℚ)

/-- The square-and-multiply loop of Go `math.Pow` for an integer exponent `i`, on
mantissas of 53 bits with an unbounded exponent: `a1` is the answer so far, `x1` the
current power of the base. -/
def powLoop : ℕ → ℕ → ℚ → ℚ → ℚ
  | 0, _, a1, _ => a1
  | fuel + 1, i, a1, x1 =>
      if i = 0 then a1
      else powLoop fuel (i / 2) (if i % 2 = 1 then roundMag false (a1 * x1) else a1)
        (roundMag false (x1 * x1))

namespace Binary64

/-- The binary64 value of sign `neg` nearest to the magnitude `|q|`: an infinity from
`2 ^ 1024` on. -/
def round (neg : Bool) (q : ℚ) : Binary64 :=
  if ((2 ^ 1024 : ℕ) : ℚ) ≤ roundMag true q then inf neg else num neg (roundMag true q)

/-- Go `x + y` on float64. -/
def add : Binary64 → Binary64 → Binary64
  | num s a, num t b =>
      if s = t then round s (a + b)
      else if b < a then round s (a - b)
      else if a < b then round t (b - a)
      else num false 0
  | num _ _, inf t => inf t
  | inf s, num _ _ => inf s
  | inf s, inf t => if s = t then inf s else nan
  | nan, _ => nan
  | _, nan => nan

/-- Go `x * y` on float64. -/
def mul : Binary64 → Binary64 → Binary64
  | num s a, num t b => round (xor s t) (a * b)
  | num s a, inf t => if a = 0 then nan else inf (xor s t)
  | inf s, num t b => if b = 0 then nan else inf (xor s t)
  | inf s, inf t => inf (xor s t)
  | nan, _ => nan
  | _, nan => nan

/-- Go `x / y` on float64. -/
def div : Binary64 → Binary64 → Binary64
  | num s a, num t b =>
      if b = 0 then (if a = 0 then nan else inf (xor s t)) else round (xor s t) (a / b)
  | num s _, inf t => num (xor s t) 0
  | inf s, num t _ => inf (xor s t)
  | inf _, inf _ => nan
  | nan, _ => nan
  | _, nan => nan

instance : Add Binary64 := ⟨add⟩
instance : Mul Binary64 := ⟨mul⟩
instance : Div Binary64 := ⟨div⟩

/-- Go `x == 0` on float64: true for both zeros. -/
def isZero : Binary64 → Bool
  | num _ a => decide (a = 0)
  | _ => false

/-- A value that is neither an infinity nor NaN. -/
def isFinite : Binary64 → Bool
  | num _ _ => true
  | _ => false

/-- Go `x >= 0` on float64 (for a magnitude that is not negative): true for both zeros and
for `+Inf`, false for NaN. -/
def geZero : Binary64 → Bool
  | num s a => decide (0 ≤ a) && (!s || decide (a = 0))
  | inf s => !s
  | nan => false

/-- Go `x > 0` on float64: false for both zeros and for NaN, true for `+Inf`. -/
def gtZero : Binary64 → Bool
  | num s a => !s && decide (0 < a)
  | inf s => !s
  | nan => false

/-- The float64 nearest to a non-negative constant of the source. -/
def const (q : ℚ) : Binary64 := round false q

/-- Go conversion `float64(n)` of an `int`. -/
def float64 (n : Int) : Binary64 := round (decide (n < 0)) n

/-- Go `math.Pow(x, y)` for a natural exponent `y`. -/
def Pow (x : Binary64) (y : ℕ) : Binary64 :=
  if y = 0 then num false 1
  else if y = 1 then x
  else match x with
    | num s a =>
        if a = 0 then num (s && decide (y % 2 = 1)) 0
        else round (s && decide (y % 2 = 1)) (powLoop y y 1 a)
    | inf s => inf (s && decide (y % 2 = 1))
    | nan => nan

/-- Mean step length, metres. -/
def lenStep : Binary64 := const 0.65
/-- Metres in a kilometre. -/
def mInKm : Binary64 := const 1000
/-- Minutes in an hour. -/
def minInH : Binary64 := const 60
/-- Coefficient converting km/h to m/s. -/
def kmhInMsec : Binary64 := const 0.278
/-- Mean-speed multiplier of the running formula. -/
def runningCaloriesMeanSpeedMultiplier : Binary64 := const 18
/-- Mean-speed shift constant of the running formula. -/
def runningCaloriesMeanSpeedShift : Binary64 := const 1.79
/-- Weight multiplier of the walking formula. -/
def walkingCaloriesWeightMultiplier : Binary64 := const 0.035
/-- Height multiplier of the walking formula. -/
def walkingSpeedHeightMultiplier : Binary64 := const 0.029
/-- Mean-speed shift of the swimming formula. -/
def swimmingCaloriesMeanSpeedShift : Binary64 := const 1.1
/-- Weight multiplier of the swimming formula. -/
def swimmingCaloriesWeightMultiplier : Binary64 := const 2

/-- Go `distance`. -/
def distance (action : Int) : Binary64 :=
  float64 action * lenStep / mInKm

/-- Go `meanSpeed`. -/
def meanSpeed (_action : Int) (distance duration : Binary64) : Binary64 :=
  if duration.isZero then num false 0
  else distance / duration

/-- Go `RunningSpentCalories`. -/
def RunningSpentCalories (speed duration weight : Binary64) : Binary64 :=
  (runningCaloriesMeanSpeedMultiplier * speed * runningCaloriesMeanSpeedShift)
    * weight / mInKm * duration * minInH

/-- Go `WalkingSpentCalories`. -/
def WalkingSpentCalories (speed duration weight height : Binary64) : Binary64 :=
  (walkingCaloriesWeightMultiplier * weight
    + (Pow (speed / kmhInMsec) 2 / height) * walkingSpeedHeightMultiplier)
    * duration * minInH

/-- Go `swimmingMeanSpeed`. -/
def swimmingMeanSpeed (lengthPool countPool : Int) (duration : Binary64) : Binary64 :=
  if duration.isZero then num false 0
  else float64 lengthPool * float64 countPool / mInKm / duration

/-- Go `SwimmingSpentCalories`. -/
def SwimmingSpentCalories (speed duration weight : Binary64) : Binary64 :=
  (speed + swimmingCaloriesMeanSpeedShift) * swimmingCaloriesWeightMultiplier
    * weight * duration

/-- Go verb `%.2f`: the sign, then the magnitude in fixed point with two decimals, rounded
on its exact decimal expansion with a half going to the even neighbour; `+Inf`, `-Inf`
and `NaN` for the special values. -/
def fmtF2 : Binary64 → String
  | num s a =>
      let h := roundHalfEven (a.num.natAbs * 100) a.den
      (if s then "-" else "") ++ Nat.repr (h / 100) ++ "." ++ twoDigits (h % 100)
  | inf false => "+Inf"
  | inf true => "-Inf"
  | nan => "NaN"

/-- The `fmt.Sprintf` call of `ShowTrainingInfo`. -/
def Sprintf (trainingType : String) (duration distance speed calories : Binary64) : String :=
  "Тип тренировки: " ++ trainingType
    ++ "\nДлительность: " ++ fmtF2 duration ++ " ч."
    ++ "\nДистанция: " ++ fmtF2 distance ++ " км."
    ++ "\nСкорость: " ++ fmtF2 speed ++ " км/ч"
    ++ "\nСожгли калорий: " ++ fmtF2 calories ++ "\n"

/-- The `switch` of `ShowTrainingInfo`: the speed and the calories of the branch the label
selects, `none` for the `default` branch. -/
def trainingSwitch (action : Int) (trainingType : String)
    (distance duration weight height : Binary64) (lengthPool countPool : Int) :
    Option (Binary64 × Binary64) :=
  if trainingType = "Бег" then
    let speed := meanSpeed action distance duration
    let calories := RunningSpentCalories speed duration weight
    some (speed, calories)
  else if trainingType = "Ходьба" then
    let speed := meanSpeed action distance duration
    let calories := WalkingSpentCalories speed duration weight height
    some (speed, calories)
  else if trainingType = "Плавание" then
    let speed := swimmingMeanSpeed lengthPool countPool duration
    let calories := SwimmingSpentCalories speed duration weight
    some (speed, calories)
  else none

/-- Go `ShowTrainingInfo`. -/
def ShowTrainingInfo (action : Int) (trainingType : String)
    (duration weight height : Binary64) (lengthPool countPool : Int) : String :=
  let dist := distance action
  match trainingSwitch action trainingType dist duration weight height lengthPool countPool with
  | none => "неизвестный тип тренировки"
  | some (speed, calories) => Sprintf trainingType duration dist speed calories

end Binary64

section

open Float64 (fin inf nan)

/-! ## Arithmetic of finite values -/

theorem fin_add (a b : ℚ) : fin a + fin b = fin (a + b) := rfl

theorem fin_mul (a b : ℚ) : fin a * fin b = fin (a * b) := rfl

theorem fin_div (a b : ℚ) (h : b ≠ 0) : fin a / fin b = fin (a / b) := by
  show Float64.div (fin a) (fin b) = fin (a / b)
  simp [Float64.div, h]

theorem fin_div_zero (a : ℚ) :
    fin a / fin 0 = if a = 0 then nan else inf (Float64.sgn a) := by
  show Float64.div (fin a) (fin 0) = _
  simp [Float64.div]

theorem isZero_fin (q : ℚ) : (fin q).isZero = decide (q = 0) := rfl

theorem Pow_two_fin (q : ℚ) : Pow (fin q) 2 = fin (q ^ 2) := by
  simp [Pow]

theorem distance_fin (n : Int) : distance n = fin ((n : ℚ) * 0.65 / 1000) := by
  simp only [distance, float64, lenStep, mInKm, fin_mul]
  rw [fin_div _ _ (by norm_num)]

theorem meanSpeed_zero (a : Int) (d : Float64) : meanSpeed a d (fin 0) = fin 0 := by
  simp [meanSpeed, isZero_fin]

theorem meanSpeed_fin (a : Int) (d t : ℚ) (h : t ≠ 0) :
    meanSpeed a (fin d) (fin t) = fin (d / t) := by
  simp [meanSpeed, isZero_fin, h, fin_div]

theorem RunningSpentCalories_fin (speed duration weight : ℚ) :
    RunningSpentCalories (fin speed) (fin duration) (fin weight)
      = fin ((18 * speed * 1.79) * weight / 1000 * duration * 60) := by
  simp only [RunningSpentCalories, runningCaloriesMeanSpeedMultiplier,
    runningCaloriesMeanSpeedShift, mInKm, minInH, fin_mul]
  rw [fin_div _ _ (by norm_num)]
  simp only [fin_mul]

/-! ## Contracts of the computations -/

/-- Claim C1: for every action count `n` (negative ones included, which the `int` type
admits), `distance n` is `n * 0.65 / 1000`, that is `n * 0.00065` kilometres; in
particular `distance 0 = 0` and `distance 9000 = 5.85`. -/
theorem distance_contract (n : Int) :
    distance n = fin ((n : ℚ) * 0.65 / 1000)
      ∧ distance n = fin ((n : ℚ) * 0.00065)
      ∧ distance 0 = fin 0
      ∧ distance 9000 = fin 5.85 := by
  refine ⟨distance_fin n, ?_, ?_, ?_⟩
  · rw [distance_fin]; congr 1; ring
  · rw [distance_fin]; congr 1; norm_num
  · rw [distance_fin]; congr 1; norm_num

/-- Claim C2: `meanSpeed a d t` is `0` when the duration `t` is `0`, whatever the
distance `d` (finite or not); it is `d / t` for every finite `d` and `t` with `t ≠ 0`;
and the action count `a` never influences the result. -/
theorem meanSpeed_contract (a b : Int) (d t : ℚ) (x y : Float64) :
    meanSpeed a x (fin 0) = fin 0
      ∧ (t ≠ 0 → meanSpeed a (fin d) (fin t) = fin (d / t))
      ∧ meanSpeed a x y = meanSpeed b x y :=
  ⟨meanSpeed_zero a x, meanSpeed_fin a d t, rfl⟩

/-- Witness of C2 at distance `5.85`, duration `2`. -/
theorem meanSpeed_contract_witness :
    (2 : ℚ) ≠ 0 ∧ meanSpeed 9000 (fin 5.85) (fin 2) = fin (5.85 / 2) :=
  ⟨by norm_num, (meanSpeed_contract 9000 0 5.85 2 nan nan).2.1 (by norm_num)⟩

/-- Claim C3: `swimmingMeanSpeed L c t` is `0` when the duration `t` is `0`, and
`(L * c / 1000) / t` for every `t ≠ 0`, for every pool length `L` and lap count `c`. -/
theorem swimmingMeanSpeed_contract (L c : Int) (t : ℚ) :
    swimmingMeanSpeed L c (fin 0) = fin 0
      ∧ (t ≠ 0 → swimmingMeanSpeed L c (fin t) = fin (((L : ℚ) * (c : ℚ) / 1000) / t)) := by
  refine ⟨by simp [swimmingMeanSpeed, isZero_fin], fun h => ?_⟩
  simp only [swimmingMeanSpeed, isZero_fin, float64, mInKm, fin_mul, h, decide_False,
    Bool.false_eq_true, if_false]
  rw [fin_div _ _ (by norm_num), fin_div _ _ h]

/-- Witness of C3 at a 25 m pool, 40 laps, duration `2`. -/
theorem swimmingMeanSpeed_contract_witness :
    (2 : ℚ) ≠ 0
      ∧ swimmingMeanSpeed 25 40 (fin 2) = fin ((((25 : Int) : ℚ) * ((40 : Int) : ℚ) / 1000) / 2) :=
  ⟨by norm_num, (swimmingMeanSpeed_contract 25 40 2).2 (by norm_num)⟩

/-- Claim C4: for all (finite, unvalidated) speed, duration and weight,
`RunningSpentCalories` is `(18 * speed * 1.79) * weight / 1000 * duration * 60`. -/
theorem RunningSpentCalories_contract (speed duration weight : ℚ) :
    RunningSpentCalories (fin speed) (fin duration) (fin weight)
      = fin ((18 * speed * 1.79) * weight / 1000 * duration * 60) :=
  RunningSpentCalories_fin speed duration weight

/-- Claim C5, as stated, fails: at zero speed, duration `1` and weight `1` the code
returns `0`, not `18 * 1.79 * 1 / 1000 * 1 * 60`. -/
theorem RunningSpentCalories_zero_speed_counterexample :
    RunningSpentCalories (fin 0) (fin 1) (fin 1) = fin 0
      ∧ RunningSpentCalories (fin 0) (fin 1) (fin 1) ≠ fin (18 * 1.79 * 1 / 1000 * 1 * 60) := by
  rw [RunningSpentCalories_fin]
  constructor
  · congr 1; norm_num
  · intro h
    injection h with h
    norm_num at h

/-- Claim C5, amended: for every duration and weight `RunningSpentCalories 0 duration weight`
is `0`, the speed being a factor of the product; it equals
`18 * 1.79 * weight / 1000 * duration * 60` only when the weight or the duration is `0`. -/
theorem RunningSpentCalories_zero_speed (duration weight : ℚ) :
    RunningSpentCalories (fin 0) (fin duration) (fin weight) = fin 0
      ∧ (RunningSpentCalories (fin 0) (fin duration) (fin weight)
            = fin (18 * 1.79 * weight / 1000 * duration * 60)
          ↔ weight = 0 ∨ duration = 0) := by
  have h0 : RunningSpentCalories (fin 0) (fin duration) (fin weight) = fin 0 := by
    rw [RunningSpentCalories_fin]; congr 1; ring
  refine ⟨h0, ?_⟩
  rw [h0]
  constructor
  · intro h
    injection h with h
    have h2 : weight * duration = 0 := by
      have h3 : (18 * 1.79 * weight / 1000 * duration * 60 : ℚ)
          = (18 * 1.79 / 1000 * 60) * (weight * duration) := by ring
      rw [h3] at h
      rcases mul_eq_zero.mp h.symm with hc | hc
      · norm_num at hc
      · exact hc
    exact mul_eq_zero.mp h2
  · rintro (h | h) <;> subst h <;> congr 1 <;> ring

/-- Claim C6: for all (finite) speed, duration and weight and every height `≠ 0`,
`WalkingSpentCalories` is
`(0.035 * weight + ((speed / 0.278) ^ 2 / height) * 0.029) * duration * 60`. -/
theorem WalkingSpentCalories_contract (speed duration weight height : ℚ) (h : height ≠ 0) :
    WalkingSpentCalories (fin speed) (fin duration) (fin weight) (fin height)
      = fin ((0.035 * weight + ((speed / 0.278) ^ 2 / height) * 0.029) * duration * 60) := by
  simp only [WalkingSpentCalories, walkingCaloriesWeightMultiplier,
    walkingSpeedHeightMultiplier, kmhInMsec, minInH, fin_mul]
  rw [fin_div _ _ (by norm_num), Pow_two_fin, fin_div _ _ h]
  simp only [fin_mul, fin_add]

/-- Witness of C6 at speed `5.85`, duration `1`, weight `75`, height `180`. -/
theorem WalkingSpentCalories_contract_witness :
    (180 : ℚ) ≠ 0
      ∧ WalkingSpentCalories (fin 5.85) (fin 1) (fin 75) (fin 180)
        = fin ((0.035 * 75 + ((5.85 / 0.278) ^ 2 / 180) * 0.029) * 1 * 60) :=
  ⟨by norm_num, WalkingSpentCalories_contract 5.85 1 75 180 (by norm_num)⟩

/-- Claim C7: for all (finite) speed, duration and weight, `SwimmingSpentCalories` is
`(speed + 1.1) * 2 * weight * duration`; in particular
`SwimmingSpentCalories 0 1 1 = 2.2`. -/
theorem SwimmingSpentCalories_contract (speed duration weight : ℚ) :
    SwimmingSpentCalories (fin speed) (fin duration) (fin weight)
        = fin ((speed + 1.1) * 2 * weight * duration)
      ∧ SwimmingSpentCalories (fin 0) (fin 1) (fin 1) = fin 2.2 := by
  have key : ∀ s d w : ℚ, SwimmingSpentCalories (fin s) (fin d) (fin w)
      = fin ((s + 1.1) * 2 * w * d) := by
    intro s d w
    simp only [SwimmingSpentCalories, swimmingCaloriesMeanSpeedShift,
      swimmingCaloriesWeightMultiplier, fin_mul, fin_add]
  refine ⟨key _ _ _, ?_⟩
  rw [key]; congr 1; norm_num

/-! ## The report: dispatch on the label -/

/-- Claim C8, as stated, fails: for the unrecognized label "Unknown" the code does not
return the English text "unknown training type"; its sentinel is the Russian text. -/
theorem ShowTrainingInfo_unknown_counterexample :
    ShowTrainingInfo 0 "Unknown" (fin 1) (fin 1) (fin 1) 0 0 ≠ "unknown training type"
      ∧ ShowTrainingInfo 0 "Unknown" (fin 1) (fin 1) (fin 1) 0 0
          = "неизвестный тип тренировки" := by
  constructor <;> decide

/-- Claim C8, amended: for every label that is none of the three recognized labels
"Бег", "Ходьба", "Плавание", and for all values of the other six inputs (finite or not),
`ShowTrainingInfo` returns exactly the sentinel "неизвестный тип тренировки", which is no
formatted report. -/
theorem ShowTrainingInfo_unknown (action : Int) (trainingType : String)
    (duration weight height : Float64) (lengthPool countPool : Int)
    (hRun : trainingType ≠ "Бег") (hWalk : trainingType ≠ "Ходьба")
    (hSwim : trainingType ≠ "Плавание") :
    ShowTrainingInfo action trainingType duration weight height lengthPool countPool
        = "неизвестный тип тренировки"
      ∧ ∀ (l : String) (d x v c : Float64),
          ShowTrainingInfo action trainingType duration weight height lengthPool countPool
            ≠ Sprintf l d x v c := by
  have hs : ShowTrainingInfo action trainingType duration weight height lengthPool countPool
      = "неизвестный тип тренировки" := by
    simp [ShowTrainingInfo, trainingSwitch, hRun, hWalk, hSwim]
  refine ⟨hs, fun l d x v c h => ?_⟩
  rw [hs] at h
  have h2 := congrArg (fun s : String => s.data.head?) h
  simp [Sprintf, String.data_append] at h2

/-- Witness of C8 at the label "Unknown". -/
theorem ShowTrainingInfo_unknown_witness :
    ShowTrainingInfo 9000 "Unknown" (fin 1) (fin 75) (fin 180) 25 40
      = "неизвестный тип тренировки" :=
  (ShowTrainingInfo_unknown 9000 "Unknown" (fin 1) (fin 75) (fin 180) 25 40
    (by decide) (by decide) (by decide)).1

/-- Claim C9, as stated, fails: the label "Running" is not one the code recognizes, so
`ShowTrainingInfo 9000 "Running" 1 75 180 0 0` is the sentinel, a string in which "5.85"
does not occur. -/
theorem ShowTrainingInfo_sample_counterexample :
    ShowTrainingInfo 9000 "Running" (fin 1) (fin 75) (fin 180) 0 0
        = "неизвестный тип тренировки"
      ∧ ¬ ("5.85".data <:+: (ShowTrainingInfo 9000 "Running" (fin 1) (fin 75) (fin 180) 0 0).data) := by
  constructor <;> decide

/-- Claim C9, amended: with the running label the code recognizes, "Бег",
`ShowTrainingInfo 9000 "Бег" 1 75 180 0 0` computes a distance of `5.85` km, renders it
as "5.85", and returns the report whose distance line is "Дистанция: 5.85 км.". -/
theorem ShowTrainingInfo_sample :
    distance 9000 = fin 5.85
      ∧ fmtF2 (distance 9000) = "5.85"
      ∧ ShowTrainingInfo 9000 "Бег" (fin 1) (fin 75) (fin 180) 0 0
          = "Тип тренировки: Бег\nДлительность: 1.00 ч.\nДистанция: 5.85 км.\nСкорость: 5.85 км/ч\nСожгли калорий: 848.19\n" := by
  refine ⟨?_, ?_, ?_⟩
  · rw [distance_fin]; congr 1; norm_num
  · decide!
  · decide!

/-- Claim C10: for the running label "Бег" and the walking label "Ходьба", and for all
other inputs (finite or not), the speed `ShowTrainingInfo` computes and reports is
`meanSpeed action (distance action) duration`; the calories are
`RunningSpentCalories speed duration weight` for running and
`WalkingSpentCalories speed duration weight height` for walking, with that same speed. -/
theorem ShowTrainingInfo_land (action : Int) (duration weight height : Float64)
    (lengthPool countPool : Int) :
    (trainingSwitch action "Бег" (distance action) duration weight height lengthPool countPool
        = some (meanSpeed action (distance action) duration,
            RunningSpentCalories (meanSpeed action (distance action) duration) duration weight)
      ∧ ShowTrainingInfo action "Бег" duration weight height lengthPool countPool
        = Sprintf "Бег" duration (distance action) (meanSpeed action (distance action) duration)
            (RunningSpentCalories (meanSpeed action (distance action) duration) duration weight))
    ∧ (trainingSwitch action "Ходьба" (distance action) duration weight height lengthPool countPool
        = some (meanSpeed action (distance action) duration,
            WalkingSpentCalories (meanSpeed action (distance action) duration) duration weight
              height)
      ∧ ShowTrainingInfo action "Ходьба" duration weight height lengthPool countPool
        = Sprintf "Ходьба" duration (distance action)
            (meanSpeed action (distance action) duration)
            (WalkingSpentCalories (meanSpeed action (distance action) duration) duration weight
              height)) := by
  have hw : ("Ходьба" : String) ≠ "Бег" := by decide
  refine ⟨⟨?_, ?_⟩, ⟨?_, ?_⟩⟩
  · simp [trainingSwitch]
  · simp [ShowTrainingInfo, trainingSwitch]
  · simp [trainingSwitch, hw]
  · simp [ShowTrainingInfo, trainingSwitch, hw]

/-! ## Further facts on the computations and on the dispatch -/

theorem swimmingMeanSpeed_fin (L c : Int) (t : ℚ) (h : t ≠ 0) :
    swimmingMeanSpeed L c (fin t) = fin (((L : ℚ) * (c : ℚ) / 1000) / t) := by
  simp only [swimmingMeanSpeed, isZero_fin, float64, mInKm, fin_mul, h, decide_False,
    Bool.false_eq_true, if_false]
  rw [fin_div _ _ (by norm_num), fin_div _ _ h]

theorem SwimmingSpentCalories_fin (speed duration weight : ℚ) :
    SwimmingSpentCalories (fin speed) (fin duration) (fin weight)
      = fin ((speed + 1.1) * 2 * weight * duration) := by
  simp only [SwimmingSpentCalories, swimmingCaloriesMeanSpeedShift,
    swimmingCaloriesWeightMultiplier, fin_mul, fin_add]

theorem trainingSwitch_running (action : Int) (dist duration weight height : Float64)
    (lengthPool countPool : Int) :
    trainingSwitch action "Бег" dist duration weight height lengthPool countPool
      = some (meanSpeed action dist duration,
          RunningSpentCalories (meanSpeed action dist duration) duration weight) := by
  simp [trainingSwitch]

theorem trainingSwitch_walking (action : Int) (dist duration weight height : Float64)
    (lengthPool countPool : Int) :
    trainingSwitch action "Ходьба" dist duration weight height lengthPool countPool
      = some (meanSpeed action dist duration,
          WalkingSpentCalories (meanSpeed action dist duration) duration weight height) := by
  have hw : ("Ходьба" : String) ≠ "Бег" := by decide
  simp [trainingSwitch, hw]

theorem trainingSwitch_swimming (action : Int) (dist duration weight height : Float64)
    (lengthPool countPool : Int) :
    trainingSwitch action "Плавание" dist duration weight height lengthPool countPool
      = some (swimmingMeanSpeed lengthPool countPool duration,
          SwimmingSpentCalories (swimmingMeanSpeed lengthPool countPool duration) duration
            weight) := by
  have h1 : ("Плавание" : String) ≠ "Бег" := by decide
  have h2 : ("Плавание" : String) ≠ "Ходьба" := by decide
  simp [trainingSwitch, h1, h2]

theorem ShowTrainingInfo_of_switch (action : Int) (trainingType : String)
    (duration weight height : Float64) (lengthPool countPool : Int) (speed calories : Float64)
    (h : trainingSwitch action trainingType (distance action) duration weight height
        lengthPool countPool = some (speed, calories)) :
    ShowTrainingInfo action trainingType duration weight height lengthPool countPool
      = Sprintf trainingType duration (distance action) speed calories := by
  simp [ShowTrainingInfo, h]

/-- Claim C11: for the swimming label "Плавание" the speed `ShowTrainingInfo` computes and
reports is `swimmingMeanSpeed lengthPool countPool duration` and the calories are
`SwimmingSpentCalories` of that speed, the duration and the weight; with a 25 m pool,
40 laps and duration `1` the speed is `1` km/h and the calories are
`(1 + 1.1) * 2 * weight * 1` for every (finite) weight. -/
theorem ShowTrainingInfo_swimming (action : Int) (duration weight height : Float64)
    (lengthPool countPool : Int) (w : ℚ) :
    trainingSwitch action "Плавание" (distance action) duration weight height lengthPool
        countPool
        = some (swimmingMeanSpeed lengthPool countPool duration,
            SwimmingSpentCalories (swimmingMeanSpeed lengthPool countPool duration) duration
              weight)
      ∧ ShowTrainingInfo action "Плавание" duration weight height lengthPool countPool
        = Sprintf "Плавание" duration (distance action)
            (swimmingMeanSpeed lengthPool countPool duration)
            (SwimmingSpentCalories (swimmingMeanSpeed lengthPool countPool duration) duration
              weight)
      ∧ trainingSwitch action "Плавание" (distance action) (fin 1) (fin w) height 25 40
        = some (fin 1, fin ((1 + 1.1) * 2 * w * 1)) := by
  refine ⟨trainingSwitch_swimming _ _ _ _ _ _ _, ?_, ?_⟩
  · exact ShowTrainingInfo_of_switch _ _ _ _ _ _ _ _ _ (trainingSwitch_swimming _ _ _ _ _ _ _)
  · rw [trainingSwitch_swimming, swimmingMeanSpeed_fin _ _ _ (by norm_num)]
    have h1 : (((25 : Int) : ℚ) * ((40 : Int) : ℚ) / 1000) / 1 = 1 := by norm_num
    rw [h1, SwimmingSpentCalories_fin]

/-! ## Values that are not finite -/

theorem isFinite_div_zero (x : Float64) : (x / fin 0).isFinite = false := by
  show (Float64.div x (fin 0)).isFinite = false
  cases x with
  | fin a => by_cases h : a = 0 <;> simp [Float64.div, Float64.isFinite, h]
  | inf s => simp [Float64.div, Float64.isFinite]
  | nan => simp [Float64.div, Float64.isFinite]

theorem isFinite_mul_left (x y : Float64) (h : x.isFinite = false) :
    (x * y).isFinite = false := by
  show (Float64.mul x y).isFinite = false
  cases x with
  | fin a => simp [Float64.isFinite] at h
  | inf s =>
    cases y with
    | fin b => by_cases hb : b = 0 <;> simp [Float64.mul, Float64.isFinite, hb]
    | inf t => simp [Float64.mul, Float64.isFinite]
    | nan => simp [Float64.mul, Float64.isFinite]
  | nan => cases y <;> simp [Float64.mul, Float64.isFinite]

theorem isFinite_add_right (x y : Float64) (h : y.isFinite = false) :
    (x + y).isFinite = false := by
  show (Float64.add x y).isFinite = false
  cases y with
  | fin b => simp [Float64.isFinite] at h
  | inf t =>
    cases x with
    | fin a => simp [Float64.add, Float64.isFinite]
    | inf s => by_cases hs : s = t <;> simp [Float64.add, Float64.isFinite, hs]
    | nan => simp [Float64.add, Float64.isFinite]
  | nan => cases x <;> simp [Float64.add, Float64.isFinite]

theorem inf_mul_fin (s : Bool) (b : ℚ) (hb : b ≠ 0) :
    inf s * fin b = inf (xor s (Float64.sgn b)) := by
  show Float64.mul (inf s) (fin b) = _
  simp [Float64.mul, hb]

theorem inf_mul_zero (s : Bool) : inf s * fin 0 = nan := by
  show Float64.mul (inf s) (fin 0) = _
  simp [Float64.mul]

theorem nan_mul (y : Float64) : nan * y = nan := by
  show Float64.mul nan y = nan
  cases y <;> rfl

theorem fin_add_inf (a : ℚ) (s : Bool) : fin a + inf s = inf s := rfl

theorem fin_add_nan (a : ℚ) : fin a + nan = nan := rfl

theorem sgn_of_nonneg (q : ℚ) (h : 0 ≤ q) : Float64.sgn q = false := by
  simp [Float64.sgn, not_lt.mpr h]

/-- Claim C13: for all speed, duration and weight (finite or not),
`WalkingSpentCalories speed duration weight 0` is a value (the function is total, the
division does not abort) that is not finite: an infinity or NaN.  On finite inputs it is
NaN when the speed or the duration is `0`, and otherwise the infinity with the sign of the
duration. -/
theorem WalkingSpentCalories_zero_height (speed duration weight : Float64) (s d w : ℚ) :
    (WalkingSpentCalories speed duration weight (fin 0)).isFinite = false
      ∧ WalkingSpentCalories (fin s) (fin d) (fin w) (fin 0)
        = if s = 0 ∨ d = 0 then nan else inf (decide (d < 0)) := by
  constructor
  · unfold WalkingSpentCalories
    apply isFinite_mul_left
    apply isFinite_mul_left
    apply isFinite_add_right
    apply isFinite_mul_left
    exact isFinite_div_zero _
  · simp only [WalkingSpentCalories, walkingCaloriesWeightMultiplier,
      walkingSpeedHeightMultiplier, kmhInMsec, minInH, fin_mul]
    rw [fin_div _ _ (by norm_num), Pow_two_fin, fin_div_zero]
    by_cases hs : s = 0
    · subst hs
      have h0 : ((0 : ℚ) / 0.278) ^ 2 = 0 := by norm_num
      rw [if_pos h0, if_pos (Or.inl rfl), nan_mul, fin_add_nan, nan_mul, nan_mul]
    · have hq : (s / 0.278) ^ 2 ≠ 0 := by
        apply pow_ne_zero
        apply div_ne_zero hs
        norm_num
      rw [if_neg hq, sgn_of_nonneg _ (sq_nonneg _), inf_mul_fin _ _ (by norm_num),
        sgn_of_nonneg _ (by norm_num), fin_add_inf]
      by_cases hd : d = 0
      · subst hd
        rw [if_pos (Or.inr rfl)]
        simp only [Bool.xor_false, inf_mul_zero, nan_mul]
      · have hor : ¬ (s = 0 ∨ d = 0) := fun h => h.elim hs hd
        rw [if_neg hor]
        simp only [Bool.xor_false]
        rw [inf_mul_fin _ _ hd, inf_mul_fin _ _ (by norm_num), sgn_of_nonneg 60 (by norm_num)]
        simp [Float64.sgn]

/-! ## Relations between the reported values -/

/-- Claim C15: for the swimming label "Плавание" the reported distance is
`distance action`, in which the pool length and the lap count do not occur, while the
reported speed is `swimmingMeanSpeed lengthPool countPool duration`: it is the same for
every action count and it changes with the pool length and with the lap count.  At
`action = 0`, a 25 m pool, 40 laps and duration `1` the speed times the duration is `1`
and the distance is `0`. -/
theorem ShowTrainingInfo_swimming_distance (action other : Int)
    (duration weight height : Float64) (lengthPool countPool : Int) :
    ShowTrainingInfo action "Плавание" duration weight height lengthPool countPool
        = Sprintf "Плавание" duration (distance action)
            (swimmingMeanSpeed lengthPool countPool duration)
            (SwimmingSpentCalories (swimmingMeanSpeed lengthPool countPool duration) duration
              weight)
      ∧ (trainingSwitch action "Плавание" (distance action) duration weight height
            lengthPool countPool).map Prod.fst
          = (trainingSwitch other "Плавание" (distance other) duration weight height
            lengthPool countPool).map Prod.fst
      ∧ swimmingMeanSpeed 25 40 (fin 1) ≠ swimmingMeanSpeed 50 40 (fin 1)
      ∧ swimmingMeanSpeed 25 40 (fin 1) ≠ swimmingMeanSpeed 25 80 (fin 1)
      ∧ (trainingSwitch 0 "Плавание" (distance 0) (fin 1) weight height 25 40).map Prod.fst
          = some (fin 1)
      ∧ fin 1 * fin 1 = fin 1
      ∧ distance 0 = fin 0
      ∧ swimmingMeanSpeed 25 40 (fin 1) * fin 1 ≠ distance 0 := by
  have h25 : swimmingMeanSpeed 25 40 (fin 1) = fin 1 := by
    rw [swimmingMeanSpeed_fin _ _ _ (by norm_num)]; congr 1; norm_num
  have h50 : swimmingMeanSpeed 50 40 (fin 1) = fin 2 := by
    rw [swimmingMeanSpeed_fin _ _ _ (by norm_num)]; congr 1; norm_num
  have h80 : swimmingMeanSpeed 25 80 (fin 1) = fin 2 := by
    rw [swimmingMeanSpeed_fin _ _ _ (by norm_num)]; congr 1; norm_num
  have hd0 : distance 0 = fin 0 := by rw [distance_fin]; congr 1; norm_num
  have h12 : (fin 1 : Float64) ≠ fin 2 := by
    intro h; injection h with h; norm_num at h
  refine ⟨?_, ?_, ?_, ?_, ?_, ?_, hd0, ?_⟩
  · exact ShowTrainingInfo_of_switch _ _ _ _ _ _ _ _ _ (trainingSwitch_swimming _ _ _ _ _ _ _)
  · rw [trainingSwitch_swimming, trainingSwitch_swimming]
  · rw [h25, h50]; exact h12
  · rw [h25, h80]; exact h12
  · rw [trainingSwitch_swimming, h25]; rfl
  · rw [fin_mul, mul_one]
  · rw [h25, hd0, fin_mul]
    intro h; injection h with h; norm_num at h

/-- Claim C17: the string `ShowTrainingInfo` returns does not depend on the inputs its
branch does not use: for "Бег" the height, the pool length and the lap count may change;
for "Ходьба" the pool length and the lap count; for "Плавание" the height. -/
theorem ShowTrainingInfo_unused_inputs (action : Int) (duration weight height other : Float64)
    (lengthPool countPool lengthPool2 countPool2 : Int) :
    ShowTrainingInfo action "Бег" duration weight height lengthPool countPool
        = ShowTrainingInfo action "Бег" duration weight other lengthPool2 countPool2
      ∧ ShowTrainingInfo action "Ходьба" duration weight height lengthPool countPool
        = ShowTrainingInfo action "Ходьба" duration weight height lengthPool2 countPool2
      ∧ ShowTrainingInfo action "Плавание" duration weight height lengthPool countPool
        = ShowTrainingInfo action "Плавание" duration weight other lengthPool countPool := by
  refine ⟨?_, ?_, ?_⟩
  · rw [ShowTrainingInfo_of_switch _ _ _ _ _ _ _ _ _ (trainingSwitch_running _ _ _ _ _ _ _),
      ShowTrainingInfo_of_switch _ _ _ _ _ _ _ _ _ (trainingSwitch_running _ _ _ _ _ _ _)]
  · rw [ShowTrainingInfo_of_switch _ _ _ _ _ _ _ _ _ (trainingSwitch_walking _ _ _ _ _ _ _),
      ShowTrainingInfo_of_switch _ _ _ _ _ _ _ _ _ (trainingSwitch_walking _ _ _ _ _ _ _)]
  · rw [ShowTrainingInfo_of_switch _ _ _ _ _ _ _ _ _ (trainingSwitch_swimming _ _ _ _ _ _ _),
      ShowTrainingInfo_of_switch _ _ _ _ _ _ _ _ _ (trainingSwitch_swimming _ _ _ _ _ _ _)]

end

/-! ## Rounding to binary64 -/

theorem roundHalfEven_near (n d : ℕ) (hd : 0 < d) :
    |((roundHalfEven n d : ℕ) : ℚ) - (n : ℚ) / (d : ℚ)| ≤ 1 / 2 := by
  have hdq : (0 : ℚ) < (d : ℚ) := by exact_mod_cast hd
  have hn : (n : ℚ) = (d : ℚ) * ((n / d : ℕ) : ℚ) + ((n % d : ℕ) : ℚ) := by
    exact_mod_cast (Nat.div_add_mod n d).symm
  have hquot : (n : ℚ) / (d : ℚ) = ((n / d : ℕ) : ℚ) + ((n % d : ℕ) : ℚ) / (d : ℚ) := by
    have hne : (d : ℚ) ≠ 0 := ne_of_gt hdq
    field_simp
    linarith
  have hr0 : (0 : ℚ) ≤ ((n % d : ℕ) : ℚ) / (d : ℚ) := by positivity
  have hr1 : ((n % d : ℕ) : ℚ) / (d : ℚ) < 1 := by
    rw [div_lt_one hdq]; exact_mod_cast Nat.mod_lt n hd
  rw [hquot, abs_le]
  unfold roundHalfEven
  simp only
  split_ifs with h1 h2 h3
  · have : ((n % d : ℕ) : ℚ) / (d : ℚ) ≤ 1 / 2 := by
      rw [div_le_iff₀ hdq]
      have : (2 : ℚ) * ((n % d : ℕ) : ℚ) < (d : ℚ) := by exact_mod_cast h1
      linarith
    constructor <;> linarith
  · have : 1 / 2 ≤ ((n % d : ℕ) : ℚ) / (d : ℚ) := by
      rw [le_div_iff₀ hdq]
      have : (d : ℚ) < 2 * ((n % d : ℕ) : ℚ) := by exact_mod_cast h2
      linarith
    push_cast
    constructor <;> linarith
  · have : ((n % d : ℕ) : ℚ) / (d : ℚ) ≤ 1 / 2 := by
      rw [div_le_iff₀ hdq]
      have : (2 : ℚ) * ((n % d : ℕ) : ℚ) ≤ (d : ℚ) := by exact_mod_cast not_lt.mp h2
      linarith
    constructor <;> linarith
  · have : 1 / 2 ≤ ((n % d : ℕ) : ℚ) / (d : ℚ) := by
      rw [le_div_iff₀ hdq]
      have : (d : ℚ) ≤ 2 * ((n % d : ℕ) : ℚ) := by exact_mod_cast not_lt.mp h1
      linarith
    push_cast
    constructor <;> linarith


theorem halvings_spec (fuel : ℕ) : ∀ n, 1 ≤ n → n ≤ fuel →
    2 ^ halvings fuel n ≤ n ∧ n < 2 ^ (halvings fuel n + 1) := by
  induction fuel with
  | zero => intro n h1 h2; omega
  | succ f ih =>
    intro n h1 h2
    unfold halvings
    split_ifs with h
    · simp; omega
    · have h3 := ih (n / 2) (by omega) (by omega)
      have e1 : 2 ^ (halvings f (n / 2) + 1) = 2 ^ halvings f (n / 2) * 2 := pow_succ _ _
      have e2 : 2 ^ (halvings f (n / 2) + 1 + 1) = 2 ^ (halvings f (n / 2) + 1) * 2 :=
        pow_succ _ _
      rw [e2]
      omega

theorem floorLog2_spec (n : ℕ) (h : 1 ≤ n) :
    2 ^ floorLog2 n ≤ n ∧ n < 2 ^ (floorLog2 n + 1) :=
  halvings_spec n n h (le_refl n)

theorem two_pow_toNat (k : ℤ) :
    ((2 : ℚ) ^ k.toNat) / ((2 : ℚ) ^ (-k).toNat) = (2 : ℚ) ^ k := by
  rcases le_or_lt 0 k with h | h
  · have h1 : (-k).toNat = 0 := Int.toNat_eq_zero.mpr (by omega)
    rw [h1, pow_zero, div_one, ← zpow_natCast, Int.toNat_of_nonneg h]
  · have h1 : k.toNat = 0 := Int.toNat_eq_zero.mpr (by omega)
    have h2 : ((-k).toNat : ℤ) = -k := Int.toNat_of_nonneg (by omega)
    rw [h1, pow_zero, one_div, ← zpow_natCast, h2, zpow_neg, inv_inv]

theorem binExp_spec (n d : ℕ) (hn : 1 ≤ n) (hd : 1 ≤ d) :
    (2 : ℚ) ^ binExp n d ≤ (n : ℚ) / (d : ℚ)
      ∧ (n : ℚ) / (d : ℚ) < (2 : ℚ) ^ (binExp n d + 1) := by
  obtain ⟨ha1, ha2⟩ := floorLog2_spec n hn
  obtain ⟨hb1, hb2⟩ := floorLog2_spec d hd
  have hdq : (0 : ℚ) < (d : ℚ) := by exact_mod_cast hd
  have qa1 : (2 : ℚ) ^ (floorLog2 n : ℤ) ≤ (n : ℚ) := by
    rw [zpow_natCast]; exact_mod_cast ha1
  have qa2 : (n : ℚ) < (2 : ℚ) ^ ((floorLog2 n : ℤ) + 1) := by
    have : (n : ℚ) < (2 : ℚ) ^ (floorLog2 n + 1) := by exact_mod_cast ha2
    rwa [← zpow_natCast, Nat.cast_add, Nat.cast_one] at this
  have qb1 : (2 : ℚ) ^ (floorLog2 d : ℤ) ≤ (d : ℚ) := by
    rw [zpow_natCast]; exact_mod_cast hb1
  have qb2 : (d : ℚ) < (2 : ℚ) ^ ((floorLog2 d : ℤ) + 1) := by
    have : (d : ℚ) < (2 : ℚ) ^ (floorLog2 d + 1) := by exact_mod_cast hb2
    rwa [← zpow_natCast, Nat.cast_add, Nat.cast_one] at this
  have h2 : (2 : ℚ) ≠ 0 := by norm_num
  have hpos : ∀ k : ℤ, (0 : ℚ) < (2 : ℚ) ^ k := fun k => zpow_pos (by norm_num) k
  set a : ℤ := (floorLog2 n : ℤ) with ha
  set b : ℤ := (floorLog2 d : ℤ) with hb
  have hcheck : (d * 2 ^ (a - b).toNat ≤ n * 2 ^ (-(a - b)).toNat)
      ↔ (2 : ℚ) ^ (a - b) ≤ (n : ℚ) / (d : ℚ) := by
    have hU : (0 : ℚ) < (2 : ℚ) ^ (-(a - b)).toNat := pow_pos (by norm_num) _
    rw [← two_pow_toNat (a - b), div_le_div_iff₀ hU hdq]
    constructor
    · intro h
      have : ((d * 2 ^ (a - b).toNat : ℕ) : ℚ) ≤ ((n * 2 ^ (-(a - b)).toNat : ℕ) : ℚ) := by
        exact_mod_cast h
      push_cast at this
      linarith
    · intro h
      have : ((d * 2 ^ (a - b).toNat : ℕ) : ℚ) ≤ ((n * 2 ^ (-(a - b)).toNat : ℕ) : ℚ) := by
        push_cast
        linarith
      exact_mod_cast this
  unfold binExp
  simp only [← ha, ← hb]
  split_ifs with hc
  · refine ⟨hcheck.mp hc, ?_⟩
    rw [div_lt_iff₀ hdq]
    have e1 : (2 : ℚ) ^ (a - b + 1) = (2 : ℚ) ^ (a + 1) / (2 : ℚ) ^ b := by
      rw [← zpow_sub₀ h2]; congr 1; ring
    rw [e1, div_mul_eq_mul_div, lt_div_iff₀ (hpos b)]
    calc (n : ℚ) * 2 ^ b < 2 ^ (a + 1) * 2 ^ b := by
          apply mul_lt_mul_of_pos_right qa2 (hpos b)
      _ ≤ 2 ^ (a + 1) * (d : ℚ) := by
          apply mul_le_mul_of_nonneg_left qb1 (le_of_lt (hpos _))
  · have hlt : (n : ℚ) / (d : ℚ) < (2 : ℚ) ^ (a - b) := by
      by_contra hcon
      exact hc (hcheck.mpr (not_lt.mp hcon))
    constructor
    · rw [le_div_iff₀ hdq]
      have e1 : (2 : ℚ) ^ (a - b - 1) = (2 : ℚ) ^ a / (2 : ℚ) ^ (b + 1) := by
        rw [← zpow_sub₀ h2]; congr 1; ring
      rw [e1, div_mul_eq_mul_div, div_le_iff₀ (hpos (b + 1))]
      calc (2 : ℚ) ^ a * (d : ℚ) ≤ 2 ^ a * 2 ^ (b + 1) := by
            apply mul_le_mul_of_nonneg_left (le_of_lt qb2) (le_of_lt (hpos _))
        _ ≤ (n : ℚ) * 2 ^ (b + 1) := by
            apply mul_le_mul_of_nonneg_right qa1 (le_of_lt (hpos _))
    · have : a - b - 1 + 1 = a - b := by ring
      rw [this]; exact hlt

theorem abs_eq_natAbs_div (q : ℚ) : |q| = (q.num.natAbs : ℚ) / (q.den : ℚ) := by
  have hden : (0 : ℚ) < (q.den : ℚ) := by exact_mod_cast q.den_pos
  conv_lhs => rw [← Rat.num_div_den q]
  rw [abs_div, abs_of_pos hden, Nat.cast_natAbs, Int.cast_abs]

theorem roundMag_zero (sub : Bool) : roundMag sub 0 = 0 := by
  simp [roundMag]

theorem roundMag_core (sub : Bool) (q : ℚ) (hq : q ≠ 0) :
    ∃ (p : ℤ) (m : ℕ), roundMag sub q = (m : ℚ) * (2 : ℚ) ^ p
      ∧ |(m : ℚ) * (2 : ℚ) ^ p - (|q|)| ≤ (2 : ℚ) ^ p / 2
      ∧ ((2 : ℚ) ^ p ≤ |q| / 2 ^ 52
          ∨ (sub = true ∧ p = -1074 ∧ |q| < (2 : ℚ) ^ (-1022 : ℤ))) := by
  have hn : 1 ≤ q.num.natAbs := Nat.one_le_iff_ne_zero.mpr (by
    intro h; exact hq (Rat.num_eq_zero.mp (Int.natAbs_eq_zero.mp h)))
  have hd : 1 ≤ q.den := q.den_pos
  obtain ⟨he1, he2⟩ := binExp_spec q.num.natAbs q.den hn hd
  rw [← abs_eq_natAbs_div] at he1 he2
  have hpos : ∀ k : ℤ, (0 : ℚ) < (2 : ℚ) ^ k := fun k => zpow_pos (by norm_num) k
  have h2 : (2 : ℚ) ≠ 0 := by norm_num
  set e : ℤ := binExp q.num.natAbs q.den with he
  -- the exponent of the spacing
  obtain ⟨p, hp, hp3⟩ : ∃ p : ℤ,
      p = (if sub then max (e - 52) (-1074) else e - 52)
        ∧ ((2 : ℚ) ^ p ≤ |q| / 2 ^ 52
          ∨ (sub = true ∧ p = -1074 ∧ |q| < (2 : ℚ) ^ (-1022 : ℤ))) := by
    refine ⟨_, rfl, ?_⟩
    have hmain : (2 : ℚ) ^ (e - 52) ≤ |q| / 2 ^ 52 := by
      rw [zpow_sub₀ h2]
      have : (2 : ℚ) ^ (52 : ℤ) = 2 ^ 52 := by norm_num
      rw [this]
      exact div_le_div_of_nonneg_right he1 (by norm_num)
    cases sub with
    | false => left; simpa using hmain
    | true =>
      simp only [if_true]
      rcases le_or_lt (-1074) (e - 52) with h | h
      · left; rw [max_eq_left h]; exact hmain
      · right
        refine ⟨trivial, max_eq_right (le_of_lt h), ?_⟩
        calc |q| < (2 : ℚ) ^ (e + 1) := he2
          _ ≤ (2 : ℚ) ^ (-1022 : ℤ) := zpow_le_zpow_right₀ (by norm_num) (by omega)
  set T : ℕ := 2 ^ p.toNat with hT
  set U : ℕ := 2 ^ (-p).toNat with hU
  have hTU : ((T : ℚ)) / (U : ℚ) = (2 : ℚ) ^ p := by
    rw [hT, hU]; push_cast; exact two_pow_toNat p
  have hTpos : (0 : ℚ) < (T : ℚ) := by rw [hT]; push_cast; exact pow_pos (by norm_num) _
  have hUpos : (0 : ℚ) < (U : ℚ) := by rw [hU]; push_cast; exact pow_pos (by norm_num) _
  have hdq : (0 : ℚ) < (q.den : ℚ) := by exact_mod_cast q.den_pos
  have hD : 0 < q.den * T := Nat.mul_pos q.den_pos (by rw [hT]; exact Nat.pow_pos (by norm_num))
  refine ⟨p, roundHalfEven (q.num.natAbs * U) (q.den * T), ?_, ?_, hp3⟩
  · unfold roundMag
    simp only [hq, if_false, ← he, ← hp, ← hT, ← hU]
    rw [← hTU]; push_cast; field_simp
  · have hnear := roundHalfEven_near (q.num.natAbs * U) (q.den * T) hD
    have hx : ((q.num.natAbs * U : ℕ) : ℚ) / ((q.den * T : ℕ) : ℚ) = |q| / (2 : ℚ) ^ p := by
      rw [abs_eq_natAbs_div, ← hTU]; push_cast; field_simp
    rw [hx] at hnear
    have hP := hpos p
    have e1 : (roundHalfEven (q.num.natAbs * U) (q.den * T) : ℚ) * (2 : ℚ) ^ p - |q|
        = ((roundHalfEven (q.num.natAbs * U) (q.den * T) : ℚ) - |q| / (2 : ℚ) ^ p)
            * (2 : ℚ) ^ p := by
      field_simp
    rw [e1, abs_mul, abs_of_pos hP]
    calc |(roundHalfEven (q.num.natAbs * U) (q.den * T) : ℚ) - (|q|) / (2 : ℚ) ^ p| * (2 : ℚ) ^ p
        ≤ 1 / 2 * (2 : ℚ) ^ p := mul_le_mul_of_nonneg_right hnear (le_of_lt hP)
      _ = (2 : ℚ) ^ p / 2 := by ring

theorem roundMag_nonneg (sub : Bool) (q : ℚ) : 0 ≤ roundMag sub q := by
  by_cases hq : q = 0
  · rw [hq, roundMag_zero]
  · obtain ⟨p, m, h1, -, -⟩ := roundMag_core sub q hq
    rw [h1]
    have : (0 : ℚ) < (2 : ℚ) ^ p := zpow_pos (by norm_num) p
    positivity

theorem roundMag_err (sub : Bool) (q : ℚ) :
    |roundMag sub q - (|q|)| ≤ |q| / 2 ^ 53 + 1 / 2 ^ 1075 := by
  by_cases hq : q = 0
  · rw [hq, roundMag_zero]; norm_num
  · obtain ⟨p, m, h1, h2, h3⟩ := roundMag_core sub q hq
    rw [h1]
    have habs : (0 : ℚ) ≤ |q| := abs_nonneg q
    rcases h3 with h3 | ⟨-, hp, -⟩
    · have : (2 : ℚ) ^ p / 2 ≤ |q| / 2 ^ 53 := by
        have e : |q| / 2 ^ 53 = |q| / 2 ^ 52 / 2 := by ring
        rw [e]; linarith
      have : (0 : ℚ) ≤ 1 / 2 ^ 1075 := by positivity
      linarith
    · have e : (2 : ℚ) ^ p / 2 = 1 / 2 ^ 1075 := by
        rw [hp]
        have : (2 : ℚ) ^ (-1074 : ℤ) = 1 / 2 ^ 1074 := by
          rw [zpow_neg, one_div]; norm_cast
        rw [this]; ring
      have : (0 : ℚ) ≤ |q| / 2 ^ 53 := by positivity
      linarith

theorem roundMag_rel (sub : Bool) (q : ℚ)
    (h : sub = false ∨ (2 : ℚ) ^ (-1022 : ℤ) ≤ |q|) :
    |roundMag sub q - (|q|)| ≤ |q| / 2 ^ 53 := by
  by_cases hq : q = 0
  · rw [hq, roundMag_zero]; norm_num
  · obtain ⟨p, m, h1, h2, h3⟩ := roundMag_core sub q hq
    rw [h1]
    rcases h3 with h3 | ⟨hs, -, hlt⟩
    · have e : |q| / 2 ^ 53 = |q| / 2 ^ 52 / 2 := by ring
      rw [e]; linarith
    · rcases h with h | h
      · rw [h] at hs; exact absurd hs (by decide)
      · exact absurd hlt (not_lt.mpr h)

theorem roundMag_le (sub : Bool) (q : ℚ) :
    roundMag sub q ≤ |q| + (|q| / 2 ^ 53 + 1 / 2 ^ 1075) := by
  have h := (abs_le.mp (roundMag_err sub q)).2
  linarith

theorem roundMag_le_two (sub : Bool) (q B : ℚ) (hq : |q| ≤ B) (hB : 1 ≤ B) :
    roundMag sub q ≤ 2 * B := by
  have h := roundMag_le sub q
  have h1 : |q| / 2 ^ 53 ≤ B / 2 ^ 53 := div_le_div_of_nonneg_right hq (by positivity)
  have h2 : B / 2 ^ 53 + 1 / 2 ^ 1075 ≤ B := by
    have : (1 : ℚ) / 2 ^ 1075 ≤ 1 / 2 := by norm_num
    have h3 : B / 2 ^ 53 ≤ B / 2 := by
      apply div_le_div_of_nonneg_left (by linarith) (by norm_num) (by norm_num)
    linarith
  linarith

namespace Binary64

theorem round_zero (neg : Bool) : round neg 0 = num neg 0 := by
  unfold round
  rw [roundMag_zero, if_neg]
  rw [Nat.cast_pow]
  exact not_le.mpr (by positivity)

theorem round_cases (neg : Bool) (q : ℚ) :
    round neg q = num neg (roundMag true q) ∨ round neg q = inf neg := by
  unfold round
  split_ifs
  · right; rfl
  · left; rfl

theorem round_of_le (neg : Bool) (q : ℚ) (hq : |q| ≤ 3 * 2 ^ 1022) :
    round neg q = num neg (roundMag true q) := by
  unfold round
  have h := roundMag_le true q
  have hX : (1 : ℚ) ≤ 2 ^ 1022 := one_le_pow₀ (by norm_num)
  have h1 : |q| / 2 ^ 53 ≤ 3 * 2 ^ 1022 / 2 ^ 53 := div_le_div_of_nonneg_right hq (by positivity)
  have h2 : (3 : ℚ) * 2 ^ 1022 / 2 ^ 53 ≤ 2 ^ 1022 / 2 := by
    rw [div_le_div_iff₀ (by positivity) (by norm_num)]
    have : (2 : ℚ) ^ 53 = 9007199254740992 := by norm_num
    rw [this]
    nlinarith
  have h3 : (1 : ℚ) / 2 ^ 1075 ≤ 1 / 2 := by
    apply div_le_div_of_nonneg_left (by norm_num) (by norm_num)
    calc (2 : ℚ) = 2 ^ 1 := by norm_num
      _ ≤ 2 ^ 1075 := pow_le_pow_right₀ (by norm_num) (by norm_num)
  have h4 : ((2 ^ 1024 : ℕ) : ℚ) = 4 * 2 ^ 1022 := by
    rw [Nat.cast_pow, Nat.cast_ofNat, show (1024 : ℕ) = 2 + 1022 from rfl, pow_add]
    congr 1
  have : ¬ ((2 ^ 1024 : ℕ) : ℚ) ≤ roundMag true q := by
    rw [h4]
    intro hc
    linarith
  rw [if_neg this]

theorem round_geZero (q : ℚ) : (round false q).geZero = true := by
  rcases round_cases false q with h | h
  · rw [h]; simp [geZero, roundMag_nonneg]
  · rw [h]; rfl

theorem num_mul_num (s t : Bool) (a b : ℚ) :
    num s a * num t b = round (xor s t) (a * b) := rfl

theorem num_div_num (s t : Bool) (a b : ℚ) (hb : b ≠ 0) :
    num s a / num t b = round (xor s t) (a / b) := by
  show div (num s a) (num t b) = _
  simp [div, hb]

theorem zero_mul_num (s t : Bool) (b : ℚ) : num s 0 * num t b = num (xor s t) 0 := by
  rw [num_mul_num, zero_mul, round_zero]

theorem num_mul_zero (s t : Bool) (a : ℚ) : num s a * num t 0 = num (xor s t) 0 := by
  rw [num_mul_num, mul_zero, round_zero]

theorem zero_div_num (s t : Bool) (b : ℚ) (hb : b ≠ 0) :
    num s 0 / num t b = num (xor s t) 0 := by
  rw [num_div_num _ _ _ _ hb, zero_div, round_zero]

theorem num_add_num (s t : Bool) (a b : ℚ) (ha : 0 ≤ a) (hb : 0 ≤ b)
    (hab : a + b ≤ 3 * 2 ^ 1022) :
    ∃ (u : Bool) (c : ℚ), num s a + num t b = num u c ∧ 0 ≤ c := by
  show ∃ (u : Bool) (c : ℚ), add (num s a) (num t b) = num u c ∧ 0 ≤ c
  simp only [add]
  split_ifs
  · exact ⟨_, _, round_of_le _ _ (by rw [abs_of_nonneg (by linarith)]; exact hab),
      roundMag_nonneg _ _⟩
  · exact ⟨_, _, round_of_le _ _ (by rw [abs_of_nonneg (by linarith)]; linarith),
      roundMag_nonneg _ _⟩
  · exact ⟨_, _, round_of_le _ _ (by rw [abs_of_nonneg (by linarith)]; linarith),
      roundMag_nonneg _ _⟩
  · exact ⟨false, 0, rfl, le_refl 0⟩

theorem lenStep_eq : lenStep = num false (5854679515581645 / 2 ^ 53) := by decide!
theorem mInKm_eq : mInKm = num false 1000 := by decide!
theorem minInH_eq : minInH = num false 60 := by decide!
theorem kmhInMsec_eq : kmhInMsec = num false (626000348204499 / 2 ^ 51) := by decide!
theorem runningMultiplier_eq : runningCaloriesMeanSpeedMultiplier = num false 18 := by decide!
theorem runningShift_eq :
    runningCaloriesMeanSpeedShift = num false (2015360833248297 / 2 ^ 50) := by decide!
theorem walkingWeight_eq :
    walkingCaloriesWeightMultiplier = num false (1261007895663739 / 2 ^ 55) := by decide!
theorem walkingHeight_eq :
    walkingSpeedHeightMultiplier = num false (8358680908399641 / 2 ^ 58) := by decide!
theorem swimmingShift_eq :
    swimmingCaloriesMeanSpeedShift = num false (2476979795053773 / 2 ^ 51) := by decide!
theorem swimmingWeight_eq : swimmingCaloriesWeightMultiplier = num false 2 := by decide!


theorem meanSpeed_zero_duration (action : Int) (d : Binary64) (s : Bool) :
    meanSpeed action d (num s 0) = num false 0 := by
  simp [meanSpeed, isZero]

theorem swimmingMeanSpeed_zero_duration (L c : Int) (s : Bool) :
    swimmingMeanSpeed L c (num s 0) = num false 0 := by
  simp [swimmingMeanSpeed, isZero]

theorem Pow_two_zero (s : Bool) : Pow (num s 0) 2 = num false 0 := by
  simp [Pow]

theorem running_zero_duration (sd sw : Bool) (w : ℚ) :
    ∃ sg, RunningSpentCalories (num false 0) (num sd 0) (num sw w) = num sg 0 := by
  unfold RunningSpentCalories
  rw [runningMultiplier_eq, runningShift_eq, mInKm_eq, minInH_eq, num_mul_zero,
    zero_mul_num, zero_mul_num, zero_div_num _ _ _ (by norm_num), zero_mul_num, zero_mul_num]
  exact ⟨_, rfl⟩

theorem zero_div_height (height : Binary64) (hz : height.isZero = false)
    (hn : height ≠ nan) : ∃ u, num false 0 / height = num u 0 := by
  cases height with
  | num sh h =>
      have hh : h ≠ 0 := by simpa [isZero] using hz
      exact ⟨_, zero_div_num _ _ _ hh⟩
  | inf sh => exact ⟨_, rfl⟩
  | nan => exact absurd rfl hn

theorem walking_zero_duration (sd sw : Bool) (w : ℚ) (height : Binary64) (hw0 : 0 ≤ w)
    (hw : w ≤ 2 ^ 1024) (hz : height.isZero = false) (hn : height ≠ nan) :
    ∃ sg, WalkingSpentCalories (num false 0) (num sd 0) (num sw w) height = num sg 0 := by
  obtain ⟨u, hu⟩ := zero_div_height height hz hn
  unfold WalkingSpentCalories
  rw [walkingWeight_eq, walkingHeight_eq, kmhInMsec_eq, minInH_eq,
    zero_div_num _ _ _ (by norm_num), Pow_two_zero, hu, zero_mul_num,
    num_mul_num]
  have hc : (0 : ℚ) ≤ 1261007895663739 / 2 ^ 55 * w := mul_nonneg (by norm_num) hw0
  have hX : (2 : ℚ) ^ 1024 = 4 * 2 ^ 1022 := by
    rw [show (1024 : ℕ) = 2 + 1022 from rfl, pow_add]; congr 1
  have hXpos : (0 : ℚ) < 2 ^ 1022 := by positivity
  have hb : (1261007895663739 : ℚ) / 2 ^ 55 * w ≤ 2 ^ 1022 := by
    have h1 : (1261007895663739 : ℚ) / 2 ^ 55 ≤ 1 / 4 := by norm_num
    calc (1261007895663739 : ℚ) / 2 ^ 55 * w ≤ 1 / 4 * w :=
          mul_le_mul_of_nonneg_right h1 hw0
      _ ≤ 1 / 4 * (4 * 2 ^ 1022) := by rw [← hX]; linarith
      _ = 2 ^ 1022 := by ring
  rw [round_of_le _ _ (by rw [abs_of_nonneg hc]; linarith)]
  have hr0 := roundMag_nonneg true (1261007895663739 / 2 ^ 55 * w)
  have hr1 : roundMag true (1261007895663739 / 2 ^ 55 * w) ≤ 2 * 2 ^ 1022 :=
    roundMag_le_two true _ _ (by rw [abs_of_nonneg hc]; exact hb) (one_le_pow₀ (by norm_num))
  obtain ⟨v, c, hsum, -⟩ := num_add_num (xor false sw) (xor u false)
    (roundMag true (1261007895663739 / 2 ^ 55 * w)) 0 hr0 (le_refl 0) (by linarith)
  rw [hsum, num_mul_zero, zero_mul_num]
  exact ⟨_, rfl⟩

theorem swimming_zero_duration (sd sw : Bool) (w : ℚ) (hw0 : 0 ≤ w) (hw : w ≤ 2 ^ 1022) :
    ∃ sg, SwimmingSpentCalories (num false 0) (num sd 0) (num sw w) = num sg 0 := by
  have hk : (num false 0 + swimmingCaloriesMeanSpeedShift) * swimmingCaloriesWeightMultiplier
      = num false (2476979795053773 / 2 ^ 50) := by decide!
  unfold SwimmingSpentCalories
  rw [hk, num_mul_num]
  have hc : (0 : ℚ) ≤ 2476979795053773 / 2 ^ 50 * w := mul_nonneg (by norm_num) hw0
  have hb : (2476979795053773 : ℚ) / 2 ^ 50 * w ≤ 3 * 2 ^ 1022 := by
    have h1 : (2476979795053773 : ℚ) / 2 ^ 50 ≤ 3 := by norm_num
    calc (2476979795053773 : ℚ) / 2 ^ 50 * w ≤ 3 * w := mul_le_mul_of_nonneg_right h1 hw0
      _ ≤ 3 * 2 ^ 1022 := by linarith
  rw [round_of_le _ _ (by rw [abs_of_nonneg hc]; exact hb), num_mul_zero]
  exact ⟨_, rfl⟩


/-! ### Signs -/

theorem geZero_num (s : Bool) (a : ℚ) :
    (num s a).geZero = true ↔ 0 ≤ a ∧ (s = false ∨ a = 0) := by
  cases s <;> simp [geZero]

theorem geZero_round (u : Bool) (q : ℚ) (h : u = false ∨ q = 0) :
    (round u q).geZero = true := by
  rcases h with h | h
  · rw [h]; exact round_geZero q
  · rw [h, round_zero, geZero_num]; exact ⟨le_refl 0, Or.inr rfl⟩

theorem geZero_mul_pos (x : Binary64) (b : ℚ) (hx : x.geZero = true) (hb : 0 < b) :
    (x * num false b).geZero = true := by
  cases x with
  | num s a =>
    rw [num_mul_num]
    obtain ⟨-, h⟩ := (geZero_num s a).mp hx
    apply geZero_round
    rcases h with h | h
    · left; rw [h]; rfl
    · right; rw [h, zero_mul]
  | inf s =>
    have hs : s = false := by simpa [geZero] using hx
    show (mul (inf s) (num false b)).geZero = true
    simp [mul, ne_of_gt hb, hs, geZero]
  | nan => simp [geZero] at hx

theorem geZero_pos_mul (a : ℚ) (y : Binary64) (ha : 0 < a) (hy : y.geZero = true) :
    (num false a * y).geZero = true := by
  cases y with
  | num t b =>
    rw [num_mul_num]
    obtain ⟨-, h⟩ := (geZero_num t b).mp hy
    apply geZero_round
    rcases h with h | h
    · left; rw [h]; rfl
    · right; rw [h, mul_zero]
  | inf t =>
    have ht : t = false := by simpa [geZero] using hy
    show (mul (num false a) (inf t)).geZero = true
    simp [mul, ne_of_gt ha, ht, geZero]
  | nan => simp [geZero] at hy

theorem geZero_div_pos (x : Binary64) (b : ℚ) (hx : x.geZero = true) (hb : 0 < b) :
    (x / num false b).geZero = true := by
  cases x with
  | num s a =>
    rw [num_div_num _ _ _ _ (ne_of_gt hb)]
    obtain ⟨-, h⟩ := (geZero_num s a).mp hx
    apply geZero_round
    rcases h with h | h
    · left; rw [h]; rfl
    · right; rw [h, zero_div]
  | inf s =>
    have hs : s = false := by simpa [geZero] using hx
    show (div (inf s) (num false b)).geZero = true
    simp [div, hs, geZero]
  | nan => simp [geZero] at hx

theorem geZero_add (x y : Binary64) (hx : x.geZero = true) (hy : y.geZero = true) :
    (x + y).geZero = true := by
  cases x with
  | num s a =>
    obtain ⟨ha, hsa⟩ := (geZero_num s a).mp hx
    cases y with
    | num t b =>
      obtain ⟨hb, htb⟩ := (geZero_num t b).mp hy
      show (add (num s a) (num t b)).geZero = true
      simp only [add]
      split_ifs with h1 h2 h3
      · apply geZero_round
        rcases hsa with h | h
        · left; exact h
        · rcases htb with h' | h'
          · left; rw [h1]; exact h'
          · right; rw [h, h']; norm_num
      · apply geZero_round
        rcases hsa with h | h
        · left; exact h
        · exfalso; rw [h] at h2; linarith
      · apply geZero_round
        rcases htb with h | h
        · left; exact h
        · exfalso; rw [h] at h3; linarith
      · rfl
    | inf t =>
      have ht : t = false := by simpa [geZero] using hy
      show (add (num s a) (inf t)).geZero = true
      simp [add, ht, geZero]
    | nan => simp [geZero] at hy
  | inf s =>
    have hs : s = false := by simpa [geZero] using hx
    cases y with
    | num t b =>
      show (add (inf s) (num t b)).geZero = true
      simp [add, hs, geZero]
    | inf t =>
      have ht : t = false := by simpa [geZero] using hy
      show (add (inf s) (inf t)).geZero = true
      simp [add, hs, ht, geZero]
    | nan => simp [geZero] at hy
  | nan => simp [geZero] at hx

theorem geZero_Pow_two (x : Binary64) (hx : x ≠ nan) : (Pow x 2).geZero = true := by
  cases x with
  | num s a =>
    by_cases ha : a = 0
    · simp [Pow, ha, geZero]
    · simp only [Pow, ha]
      simp only [OfNat.ofNat_ne_zero, OfNat.ofNat_ne_one, if_false, Nat.mod_self,
        zero_ne_one, decide_False, Bool.and_false]
      exact round_geZero _
  | inf s => simp [Pow, geZero]
  | nan => exact absurd rfl hx

theorem mul_nan_left (y : Binary64) : (nan : Binary64) * y = nan := by
  show mul nan y = nan
  cases y <;> rfl

theorem mul_nan_right (x : Binary64) : x * (nan : Binary64) = nan := by
  show mul x nan = nan
  cases x <;> rfl

theorem geZero_or_nan_mul (x y : Binary64) (hx : x.geZero = true ∨ x = nan)
    (hy : y.geZero = true ∨ y = nan) : (x * y).geZero = true ∨ x * y = nan := by
  rcases hx with hx | hx
  swap
  · right; rw [hx]; exact mul_nan_left y
  rcases hy with hy | hy
  swap
  · right; rw [hy]; exact mul_nan_right x
  cases x with
  | num s a =>
    obtain ⟨ha, hsa⟩ := (geZero_num s a).mp hx
    cases y with
    | num t b =>
      obtain ⟨hb, htb⟩ := (geZero_num t b).mp hy
      left
      rw [num_mul_num]
      apply geZero_round
      rcases hsa with h | h
      · rcases htb with h' | h'
        · left; rw [h, h']; rfl
        · right; rw [h', mul_zero]
      · right; rw [h, zero_mul]
    | inf t =>
      have ht : t = false := by simpa [geZero] using hy
      show (mul (num s a) (inf t)).geZero = true ∨ mul (num s a) (inf t) = nan
      by_cases h0 : a = 0
      · right; simp [mul, h0]
      · left
        have hs : s = false := hsa.resolve_right h0
        simp [mul, h0, hs, ht, geZero]
    | nan => simp [geZero] at hy
  | inf s =>
    have hs : s = false := by simpa [geZero] using hx
    cases y with
    | num t b =>
      obtain ⟨hb, htb⟩ := (geZero_num t b).mp hy
      show (mul (inf s) (num t b)).geZero = true ∨ mul (inf s) (num t b) = nan
      by_cases h0 : b = 0
      · right; simp [mul, h0]
      · left
        have ht : t = false := htb.resolve_right h0
        simp [mul, h0, hs, ht, geZero]
    | inf t =>
      have ht : t = false := by simpa [geZero] using hy
      left
      show (mul (inf s) (inf t)).geZero = true
      simp [mul, hs, ht, geZero]
    | nan => simp [geZero] at hy
  | nan => simp [geZero] at hx


theorem add_nan_left (y : Binary64) : (nan : Binary64) + y = nan := by
  show add nan y = nan
  cases y <;> rfl

theorem add_nan_right (x : Binary64) : x + (nan : Binary64) = nan := by
  show add x nan = nan
  cases x <;> rfl

theorem div_nan_left (y : Binary64) : (nan : Binary64) / y = nan := by
  show div nan y = nan
  cases y <;> rfl

theorem geZero_or_nan_add (x y : Binary64) (hx : x.geZero = true ∨ x = nan)
    (hy : y.geZero = true ∨ y = nan) : (x + y).geZero = true ∨ x + y = nan := by
  rcases hx with hx | hx
  · rcases hy with hy | hy
    · left; exact geZero_add x y hx hy
    · right; rw [hy]; exact add_nan_right x
  · right; rw [hx]; exact add_nan_left y

theorem geZero_or_nan_div_pos (x : Binary64) (b : ℚ) (hx : x.geZero = true ∨ x = nan)
    (hb : 0 < b) : (x / num false b).geZero = true ∨ x / num false b = nan := by
  rcases hx with hx | hx
  · left; exact geZero_div_pos x b hx hb
  · right; rw [hx]; exact div_nan_left _

theorem geZero_or_nan_Pow_two (x : Binary64) :
    (Pow x 2).geZero = true ∨ Pow x 2 = nan := by
  by_cases hx : x = nan
  · right; rw [hx]; simp [Pow]
  · left; exact geZero_Pow_two x hx

theorem geZero_pos (c : ℚ) (hc : 0 < c) : (num false c).geZero = true :=
  (geZero_num false c).mpr ⟨le_of_lt hc, Or.inl rfl⟩

theorem geZero_ne_nan (x : Binary64) (hx : x.geZero = true) : x ≠ nan := by
  intro h; rw [h] at hx; simp [geZero] at hx

/-! ### The three calorie formulas never give a negative value -/

theorem running_geZero_or_nan (speed duration weight : Binary64)
    (hs : speed.geZero = true) (hd : duration.geZero = true) (hw : weight.geZero = true) :
    (RunningSpentCalories speed duration weight).geZero = true
      ∨ RunningSpentCalories speed duration weight = nan := by
  unfold RunningSpentCalories
  rw [runningMultiplier_eq, runningShift_eq, mInKm_eq, minInH_eq]
  apply geZero_or_nan_mul _ _ _ (Or.inl (geZero_pos _ (by norm_num)))
  apply geZero_or_nan_mul _ _ _ (Or.inl hd)
  apply geZero_or_nan_div_pos _ _ _ (by norm_num)
  apply geZero_or_nan_mul _ _ _ (Or.inl hw)
  apply geZero_or_nan_mul _ _ _ (Or.inl (geZero_pos _ (by norm_num)))
  exact Or.inl (geZero_pos_mul _ _ (by norm_num) hs)

theorem geZero_or_nan_div_gtZero (x y : Binary64) (hx : x.geZero = true ∨ x = nan)
    (hy : y.gtZero = true) : (x / y).geZero = true ∨ x / y = nan := by
  cases y with
  | num s b =>
      simp only [gtZero, Bool.and_eq_true, Bool.not_eq_true', decide_eq_true_eq] at hy
      obtain ⟨hs, hb⟩ := hy
      subst hs
      exact geZero_or_nan_div_pos x b hx hb
  | inf s =>
      simp only [gtZero, Bool.not_eq_true'] at hy
      subst hy
      cases x with
      | num t a =>
          left
          show (div (num t a) (inf false)).geZero = true
          simp [div, geZero]
      | inf t => right; rfl
      | nan => right; rfl
  | nan => simp [gtZero] at hy

theorem gtZero_finite (x : Binary64) (h1 : x.gtZero = true) (h2 : x.isFinite = true) :
    ∃ a, x = num false a ∧ 0 < a := by
  cases x with
  | num s a =>
      simp only [gtZero, Bool.and_eq_true, Bool.not_eq_true', decide_eq_true_eq] at h1
      obtain ⟨hs, ha⟩ := h1
      subst hs
      exact ⟨a, rfl, ha⟩
  | inf s => simp [isFinite] at h2
  | nan => simp [isFinite] at h2

theorem walking_geZero_or_nan (speed duration weight height : Binary64)
    (hd : duration.geZero = true) (hw : weight.geZero = true)
    (hh : height.gtZero = true) :
    (WalkingSpentCalories speed duration weight height).geZero = true
      ∨ WalkingSpentCalories speed duration weight height = nan := by
  unfold WalkingSpentCalories
  rw [walkingWeight_eq, walkingHeight_eq, minInH_eq]
  apply geZero_or_nan_mul _ _ _ (Or.inl (geZero_pos _ (by norm_num)))
  apply geZero_or_nan_mul _ _ _ (Or.inl hd)
  apply geZero_or_nan_add
  · exact Or.inl (geZero_pos_mul _ _ (by norm_num) hw)
  · apply geZero_or_nan_mul _ _ _ (Or.inl (geZero_pos _ (by norm_num)))
    exact geZero_or_nan_div_gtZero _ _ (geZero_or_nan_Pow_two _) hh

theorem swimming_geZero_or_nan (speed duration weight : Binary64)
    (hs : speed.geZero = true) (hd : duration.geZero = true) (hw : weight.geZero = true) :
    (SwimmingSpentCalories speed duration weight).geZero = true
      ∨ SwimmingSpentCalories speed duration weight = nan := by
  unfold SwimmingSpentCalories
  rw [swimmingShift_eq, swimmingWeight_eq]
  apply geZero_or_nan_mul _ _ _ (Or.inl hd)
  apply geZero_or_nan_mul _ _ _ (Or.inl hw)
  left
  apply geZero_mul_pos _ _ _ (by norm_num)
  exact geZero_add _ _ hs (geZero_pos _ (by norm_num))

/-! ### With a positive duration and weight the value is not NaN either -/

theorem running_geZero (speed : Binary64) (d w : ℚ) (hs : speed.geZero = true)
    (hd : 0 < d) (hw : 0 < w) :
    (RunningSpentCalories speed (num false d) (num false w)).geZero = true := by
  unfold RunningSpentCalories
  rw [runningMultiplier_eq, runningShift_eq, mInKm_eq, minInH_eq]
  apply geZero_mul_pos _ _ _ (by norm_num)
  apply geZero_mul_pos _ _ _ hd
  apply geZero_div_pos _ _ _ (by norm_num)
  apply geZero_mul_pos _ _ _ hw
  apply geZero_mul_pos _ _ _ (by norm_num)
  exact geZero_pos_mul _ _ (by norm_num) hs

theorem walking_geZero (speed weight : Binary64) (d h : ℚ) (hs : speed.geZero = true)
    (hw : weight.geZero = true) (hd : 0 < d) (hh : 0 < h) :
    (WalkingSpentCalories speed (num false d) weight (num false h)).geZero = true := by
  unfold WalkingSpentCalories
  rw [walkingWeight_eq, walkingHeight_eq, kmhInMsec_eq, minInH_eq]
  apply geZero_mul_pos _ _ _ (by norm_num)
  apply geZero_mul_pos _ _ _ hd
  apply geZero_add
  · exact geZero_pos_mul _ _ (by norm_num) hw
  · apply geZero_mul_pos _ _ _ (by norm_num)
    apply geZero_div_pos _ _ _ hh
    apply geZero_Pow_two
    exact geZero_ne_nan _ (geZero_div_pos _ _ hs (by norm_num))

theorem swimming_geZero (speed : Binary64) (d w : ℚ) (hs : speed.geZero = true)
    (hd : 0 < d) (hw : 0 < w) :
    (SwimmingSpentCalories speed (num false d) (num false w)).geZero = true := by
  unfold SwimmingSpentCalories
  rw [swimmingShift_eq, swimmingWeight_eq]
  apply geZero_mul_pos _ _ _ hd
  apply geZero_mul_pos _ _ _ hw
  apply geZero_mul_pos _ _ _ (by norm_num)
  exact geZero_add _ _ hs (geZero_pos _ (by norm_num))

theorem distance_geZero (n : Int) (hn : 0 ≤ n) : (distance n).geZero = true := by
  unfold distance float64
  rw [lenStep_eq, mInKm_eq]
  apply geZero_div_pos _ _ _ (by norm_num)
  apply geZero_mul_pos _ _ _ (by norm_num)
  have : decide (n < 0) = false := by simpa using hn
  rw [this]
  exact round_geZero _


/-! ### A product with a zero duration is a zero or NaN -/

theorem mul_zero_cases (x : Binary64) (s : Bool) :
    x * num s 0 = nan ∨ ∃ sg, x * num s 0 = num sg 0 := by
  cases x with
  | num t a => right; exact ⟨_, num_mul_zero t s a⟩
  | inf t =>
      left
      show mul (inf t) (num s 0) = nan
      simp [mul]
  | nan => left; exact mul_nan_left _

theorem zero_or_nan_mul_num (x : Binary64) (t : Bool) (b : ℚ)
    (hx : x = nan ∨ ∃ sg, x = num sg 0) :
    x * num t b = nan ∨ ∃ sg, x * num t b = num sg 0 := by
  rcases hx with hx | ⟨sg, hx⟩
  · left; rw [hx]; exact mul_nan_left _
  · right; rw [hx]; exact ⟨_, zero_mul_num sg t b⟩

theorem running_zero_or_nan (speed weight : Binary64) (sd : Bool) :
    RunningSpentCalories speed (num sd 0) weight = nan
      ∨ ∃ sg, RunningSpentCalories speed (num sd 0) weight = num sg 0 := by
  unfold RunningSpentCalories
  rw [minInH_eq]
  exact zero_or_nan_mul_num _ _ _ (mul_zero_cases _ _)

theorem walking_zero_or_nan (speed weight height : Binary64) (sd : Bool) :
    WalkingSpentCalories speed (num sd 0) weight height = nan
      ∨ ∃ sg, WalkingSpentCalories speed (num sd 0) weight height = num sg 0 := by
  unfold WalkingSpentCalories
  rw [minInH_eq]
  exact zero_or_nan_mul_num _ _ _ (mul_zero_cases _ _)

theorem swimming_zero_or_nan (speed weight : Binary64) (sd : Bool) :
    SwimmingSpentCalories speed (num sd 0) weight = nan
      ∨ ∃ sg, SwimmingSpentCalories speed (num sd 0) weight = num sg 0 := by
  unfold SwimmingSpentCalories
  exact mul_zero_cases _ _

/-! ### Magnitudes -/

theorem le_big (B : ℚ) (h : B ≤ 2 ^ 200) : B ≤ 3 * 2 ^ 1022 := by
  have h1 : (2 : ℚ) ^ 200 ≤ 2 ^ 1022 := pow_le_pow_right₀ (by norm_num) (by norm_num)
  have h2 : (0 : ℚ) ≤ 2 ^ 1022 := by positivity
  linarith

theorem mul_bnd (s t : Bool) (a b A B : ℚ) (ha : 0 ≤ a) (haA : a ≤ A) (hb : 0 ≤ b)
    (hbB : b ≤ B) (h1 : 1 ≤ A * B) (h2 : A * B ≤ 2 ^ 200) :
    ∃ c, num s a * num t b = num (xor s t) c ∧ 0 ≤ c ∧ c ≤ 2 * (A * B) := by
  have hab : a * b ≤ A * B := mul_le_mul haA hbB hb (le_trans ha haA)
  have hq : |a * b| ≤ A * B := by rw [abs_of_nonneg (mul_nonneg ha hb)]; exact hab
  refine ⟨roundMag true (a * b), ?_, roundMag_nonneg _ _, roundMag_le_two _ _ _ hq h1⟩
  rw [num_mul_num, round_of_le _ _ (le_trans hq (le_big _ h2))]

theorem div_bnd (s t : Bool) (a b A L : ℚ) (ha : 0 ≤ a) (haA : a ≤ A) (hL : 0 < L)
    (hb : L ≤ b) (h1 : 1 ≤ A / L) (h2 : A / L ≤ 2 ^ 200) :
    ∃ c, num s a / num t b = num (xor s t) c ∧ 0 ≤ c ∧ c ≤ 2 * (A / L) := by
  have hbpos : 0 < b := lt_of_lt_of_le hL hb
  have hab : a / b ≤ A / L := div_le_div₀ (le_trans ha haA) haA hL hb
  have hq : |a / b| ≤ A / L := by
    rw [abs_of_nonneg (div_nonneg ha (le_of_lt hbpos))]; exact hab
  refine ⟨roundMag true (a / b), ?_, roundMag_nonneg _ _, roundMag_le_two _ _ _ hq h1⟩
  rw [num_div_num _ _ _ _ (ne_of_gt hbpos), round_of_le _ _ (le_trans hq (le_big _ h2))]

theorem add_bnd (a b A B : ℚ) (ha : 0 ≤ a) (haA : a ≤ A) (hb : 0 ≤ b) (hbB : b ≤ B)
    (h1 : 1 ≤ A + B) (h2 : A + B ≤ 2 ^ 200) :
    ∃ c, num false a + num false b = num false c ∧ 0 ≤ c ∧ c ≤ 2 * (A + B) := by
  have hq : |a + b| ≤ A + B := by rw [abs_of_nonneg (add_nonneg ha hb)]; linarith
  refine ⟨roundMag true (a + b), ?_, roundMag_nonneg _ _, roundMag_le_two _ _ _ hq h1⟩
  show add (num false a) (num false b) = _
  simp only [add, if_true]
  exact round_of_le _ _ (le_trans hq (le_big _ h2))

theorem Pow_two_bnd (s : Bool) (a A : ℚ) (ha : 0 ≤ a) (haA : a ≤ A) (h1 : 1 ≤ A)
    (h2 : 4 * (A * A) ≤ 2 ^ 200) :
    ∃ c, Pow (num s a) 2 = num false c ∧ 0 ≤ c ∧ c ≤ 8 * (A * A) := by
  by_cases h0 : a = 0
  · refine ⟨0, by rw [h0]; exact Pow_two_zero s, le_refl 0, ?_⟩
    nlinarith
  · have hP : Pow (num s a) 2
        = round false (roundMag false (1 * roundMag false (a * a))) := by
      simp [Pow, powLoop, h0]
    have hAA : 1 ≤ A * A := by nlinarith
    have haa : |a * a| ≤ A * A := by
      rw [abs_of_nonneg (mul_nonneg ha ha)]
      exact mul_le_mul haA haA ha (le_trans ha haA)
    have hr1 := roundMag_le_two false (a * a) (A * A) haa hAA
    have hr1' := roundMag_nonneg false (a * a)
    have hq2 : |1 * roundMag false (a * a)| ≤ 2 * (A * A) := by
      rw [one_mul, abs_of_nonneg hr1']; exact hr1
    have hr2 := roundMag_le_two false (1 * roundMag false (a * a)) (2 * (A * A)) hq2
      (by linarith)
    have hr2' := roundMag_nonneg false (1 * roundMag false (a * a))
    have hq3 : |roundMag false (1 * roundMag false (a * a))| ≤ 4 * (A * A) := by
      rw [abs_of_nonneg hr2']; linarith
    have hr3 := roundMag_le_two true _ (4 * (A * A)) hq3 (by linarith)
    refine ⟨_, ?_, roundMag_nonneg true _, by linarith⟩
    rw [hP, round_of_le _ _ (le_trans hq3 (le_big _ h2))]


theorem mulF (a b A B : ℚ) (ha : 0 ≤ a) (haA : a ≤ A) (hb : 0 ≤ b) (hbB : b ≤ B)
    (h1 : 1 ≤ A * B) (h2 : A * B ≤ 2 ^ 200) :
    ∃ c, num false a * num false b = num false c ∧ 0 ≤ c ∧ c ≤ 2 * (A * B) :=
  mul_bnd false false a b A B ha haA hb hbB h1 h2

theorem divF (a b A L : ℚ) (ha : 0 ≤ a) (haA : a ≤ A) (hL : 0 < L) (hb : L ≤ b)
    (h1 : 1 ≤ A / L) (h2 : A / L ≤ 2 ^ 200) :
    ∃ c, num false a / num false b = num false c ∧ 0 ≤ c ∧ c ≤ 2 * (A / L) :=
  div_bnd false false a b A L ha haA hL hb h1 h2

theorem running_bnd (s d w : ℚ) (hs0 : 0 ≤ s) (hs : s ≤ 2 ^ 40) (hd0 : 0 ≤ d)
    (hd : d ≤ 2 ^ 40) (hw0 : 0 ≤ w) (hw : w ≤ 2 ^ 40) :
    ∃ c, RunningSpentCalories (num false s) (num false d) (num false w) = num false c
      ∧ 0 ≤ c := by
  unfold RunningSpentCalories
  rw [runningMultiplier_eq, runningShift_eq, mInKm_eq, minInH_eq]
  obtain ⟨c1, e1, p1, b1⟩ := mulF 18 s 18 (2 ^ 40) (by norm_num) (le_refl _) hs0 hs
    (by norm_num) (by norm_num)
  rw [e1]
  obtain ⟨c2, e2, p2, b2⟩ := mulF c1 (2015360833248297 / 2 ^ 50) (2 ^ 46) 2 p1
    (le_trans b1 (by norm_num)) (by norm_num) (by norm_num) (by norm_num) (by norm_num)
  rw [e2]
  obtain ⟨c3, e3, p3, b3⟩ := mulF c2 w (2 ^ 48) (2 ^ 40) p2
    (le_trans b2 (by norm_num)) hw0 hw (by norm_num) (by norm_num)
  rw [e3]
  obtain ⟨c4, e4, p4, b4⟩ := divF c3 1000 (2 ^ 89) 1000 p3
    (le_trans b3 (by norm_num)) (by norm_num) (le_refl _) (by norm_num) (by norm_num)
  rw [e4]
  obtain ⟨c5, e5, p5, b5⟩ := mulF c4 d (2 ^ 81) (2 ^ 40) p4
    (le_trans b4 (by norm_num)) hd0 hd (by norm_num) (by norm_num)
  rw [e5]
  obtain ⟨c6, e6, p6, -⟩ := mulF c5 60 (2 ^ 122) 60 p5
    (le_trans b5 (by norm_num)) (by norm_num) (le_refl _) (by norm_num) (by norm_num)
  rw [e6]
  exact ⟨c6, rfl, p6⟩

theorem walking_bnd (s d w h : ℚ) (hs0 : 0 ≤ s) (hs : s ≤ 2 ^ 40) (hd0 : 0 ≤ d)
    (hd : d ≤ 2 ^ 40) (hw0 : 0 ≤ w) (hw : w ≤ 2 ^ 40) (hh : 1 / 2 ^ 40 ≤ h) :
    ∃ c, WalkingSpentCalories (num false s) (num false d) (num false w) (num false h)
        = num false c ∧ 0 ≤ c := by
  unfold WalkingSpentCalories
  rw [walkingWeight_eq, walkingHeight_eq, kmhInMsec_eq, minInH_eq]
  obtain ⟨u1, e1, p1, b1⟩ := divF s (626000348204499 / 2 ^ 51) (2 ^ 40) (1 / 4) hs0 hs
    (by norm_num) (by norm_num) (by norm_num) (by norm_num)
  rw [e1]
  obtain ⟨u2, e2, p2, b2⟩ := Pow_two_bnd false u1 (2 ^ 43) p1 (le_trans b1 (by norm_num))
    (by norm_num) (by norm_num)
  rw [e2]
  obtain ⟨u3, e3, p3, b3⟩ := divF u2 h (2 ^ 89) (1 / 2 ^ 40) p2
    (le_trans b2 (by norm_num)) (by norm_num) hh (by norm_num) (by norm_num)
  rw [e3]
  obtain ⟨u4, e4, p4, b4⟩ := mulF u3 (8358680908399641 / 2 ^ 58) (2 ^ 130) 1 p3
    (le_trans b3 (by norm_num)) (by norm_num) (by norm_num) (by norm_num) (by norm_num)
  rw [e4]
  obtain ⟨v1, f1, q1, g1⟩ := mulF (1261007895663739 / 2 ^ 55) w 1 (2 ^ 40) (by norm_num)
    (by norm_num) hw0 hw (by norm_num) (by norm_num)
  rw [f1]
  obtain ⟨v2, f2, q2, g2⟩ := add_bnd v1 u4 (2 ^ 41) (2 ^ 131) q1
    (le_trans g1 (by norm_num)) p4 (le_trans b4 (by norm_num)) (by norm_num) (by norm_num)
  rw [f2]
  obtain ⟨v3, f3, q3, g3⟩ := mulF v2 d (2 ^ 133) (2 ^ 40) q2
    (le_trans g2 (by norm_num)) hd0 hd (by norm_num) (by norm_num)
  rw [f3]
  obtain ⟨v4, f4, q4, -⟩ := mulF v3 60 (2 ^ 174) 60 q3
    (le_trans g3 (by norm_num)) (by norm_num) (le_refl _) (by norm_num) (by norm_num)
  rw [f4]
  exact ⟨v4, rfl, q4⟩

theorem swimming_bnd (s d w : ℚ) (hs0 : 0 ≤ s) (hs : s ≤ 2 ^ 40) (hd0 : 0 ≤ d)
    (hd : d ≤ 2 ^ 40) (hw0 : 0 ≤ w) (hw : w ≤ 2 ^ 40) :
    ∃ c, SwimmingSpentCalories (num false s) (num false d) (num false w) = num false c
      ∧ 0 ≤ c := by
  unfold SwimmingSpentCalories
  rw [swimmingShift_eq, swimmingWeight_eq]
  obtain ⟨c1, e1, p1, b1⟩ := add_bnd s (2476979795053773 / 2 ^ 51) (2 ^ 40) 2 hs0 hs
    (by norm_num) (by norm_num) (by norm_num) (by norm_num)
  rw [e1]
  obtain ⟨c2, e2, p2, b2⟩ := mulF c1 2 (2 ^ 42) 2 p1 (le_trans b1 (by norm_num))
    (by norm_num) (le_refl _) (by norm_num) (by norm_num)
  rw [e2]
  obtain ⟨c3, e3, p3, b3⟩ := mulF c2 w (2 ^ 44) (2 ^ 40) p2 (le_trans b2 (by norm_num))
    hw0 hw (by norm_num) (by norm_num)
  rw [e3]
  obtain ⟨c4, e4, p4, -⟩ := mulF c3 d (2 ^ 85) (2 ^ 40) p3 (le_trans b3 (by norm_num))
    hd0 hd (by norm_num) (by norm_num)
  rw [e4]
  exact ⟨c4, rfl, p4⟩

theorem distance_bnd (n : Int) (hn0 : 0 ≤ n) (hn : n ≤ 2 ^ 63) :
    ∃ c, distance n = num false c ∧ 0 ≤ c := by
  unfold distance float64
  rw [lenStep_eq, mInKm_eq]
  have hq0 : (0 : ℚ) ≤ (n : ℚ) := by exact_mod_cast hn0
  have hq1 : (n : ℚ) ≤ 2 ^ 63 := by exact_mod_cast hn
  have hdec : decide (n < 0) = false := by simpa using hn0
  have habs : |(n : ℚ)| ≤ 2 ^ 63 := by rw [abs_of_nonneg hq0]; exact hq1
  rw [hdec, round_of_le _ _ (le_trans habs (le_big _ (by norm_num)))]
  have b0 := roundMag_le_two true (n : ℚ) (2 ^ 63) habs (by norm_num)
  obtain ⟨c1, e1, p1, b1⟩ := mulF _ (5854679515581645 / 2 ^ 53) (2 ^ 64) 1
    (roundMag_nonneg true (n : ℚ)) (le_trans b0 (by norm_num)) (by norm_num) (by norm_num)
    (by norm_num) (by norm_num)
  rw [e1]
  obtain ⟨c2, e2, p2, -⟩ := divF c1 1000 (2 ^ 65) 1000 p1 (le_trans b1 (by norm_num))
    (by norm_num) (le_refl _) (by norm_num) (by norm_num)
  rw [e2]
  exact ⟨c2, rfl, p2⟩


/-! ### Relative error of a rounded operation -/

theorem tiny_le (x : ℚ) (h : 1 / 2 ^ 200 ≤ x) : (2 : ℚ) ^ (-1022 : ℤ) ≤ x := by
  have e : (2 : ℚ) ^ (-1022 : ℤ) = 1 / 2 ^ 1022 := by
    rw [zpow_neg, one_div]; norm_cast
  have h1 : (1 : ℚ) / 2 ^ 1022 ≤ 1 / 2 ^ 200 :=
    one_div_le_one_div_of_le (by positivity) (pow_le_pow_right₀ (by norm_num) (by norm_num))
  rw [e]; linarith

theorem round_rel (neg : Bool) (q : ℚ) (h1 : 1 / 2 ^ 200 ≤ |q|) (h2 : |q| ≤ 2 ^ 200) :
    ∃ r, round neg q = num neg r ∧ |r - (|q|)| ≤ |q| / 2 ^ 53 :=
  ⟨roundMag true q, round_of_le _ _ (le_big _ h2),
    roundMag_rel true q (Or.inr (tiny_le _ h1))⟩

theorem rel_bounds (r q : ℚ) (hq : 0 ≤ q) (h : |r - q| ≤ q / 2 ^ 53) :
    q / 2 ≤ r ∧ r ≤ 2 * q := by
  obtain ⟨h1, h2⟩ := abs_le.mp h
  have : q / 2 ^ 53 ≤ q / 2 :=
    div_le_div_of_nonneg_left hq (by norm_num) (by norm_num)
  constructor <;> linarith

theorem distance_zero : distance 0 = num false 0 := by decide!

theorem distance_rel (n : Int) (hn0 : n ≠ 0) (hn : |n| ≤ 2 ^ 63) :
    ∃ dd, distance n = num (decide (n < 0)) dd ∧ 1 / 2 ^ 14 ≤ dd ∧ dd ≤ 2 ^ 56 := by
  unfold distance float64
  rw [lenStep_eq, mInKm_eq]
  have habs1 : (1 : ℚ) ≤ |(n : ℚ)| := by
    have : (1 : ℤ) ≤ |n| := Int.one_le_abs hn0
    exact_mod_cast this
  have habs2 : |(n : ℚ)| ≤ 2 ^ 63 := by exact_mod_cast hn
  obtain ⟨f0, e0, r0⟩ := round_rel (decide (n < 0)) (n : ℚ) (by linarith [show (1:ℚ) / 2 ^ 200 ≤ 1 from by norm_num]) (by linarith [show (2:ℚ) ^ 63 ≤ 2 ^ 200 from by norm_num])
  obtain ⟨l0, u0⟩ := rel_bounds f0 _ (abs_nonneg _) r0
  rw [e0, num_mul_num]
  have hq1a : (0 : ℚ) ≤ f0 * (5854679515581645 / 2 ^ 53) := by
    apply mul_nonneg (by linarith) (by norm_num)
  have hq1l : (1 : ℚ) / 4 ≤ f0 * (5854679515581645 / 2 ^ 53) := by
    have : (1 : ℚ) / 2 ≤ f0 := by linarith
    nlinarith
  have hq1u : f0 * (5854679515581645 / 2 ^ 53) ≤ 2 ^ 64 := by
    have : f0 ≤ 2 ^ 64 := by linarith
    nlinarith
  obtain ⟨f1, e1, r1⟩ := round_rel (xor (decide (n < 0)) false)
    (f0 * (5854679515581645 / 2 ^ 53))
    (by rw [abs_of_nonneg hq1a]; linarith [show (1:ℚ) / 2 ^ 200 ≤ 1 / 4 from by norm_num])
    (by rw [abs_of_nonneg hq1a]; linarith [show (2:ℚ) ^ 64 ≤ 2 ^ 200 from by norm_num])
  rw [abs_of_nonneg hq1a] at r1
  obtain ⟨l1, u1⟩ := rel_bounds f1 _ hq1a r1
  rw [e1, num_div_num _ _ _ _ (by norm_num)]
  have hq2a : (0 : ℚ) ≤ f1 / 1000 := div_nonneg (by linarith) (by norm_num)
  have hq2l : (1 : ℚ) / 8000 ≤ f1 / 1000 := by
    rw [le_div_iff₀ (by norm_num)]; linarith
  have hq2u : f1 / 1000 ≤ 2 ^ 55 := by
    rw [div_le_iff₀ (by norm_num)]; linarith
  obtain ⟨f2, e2, r2⟩ := round_rel (xor (xor (decide (n < 0)) false) false) (f1 / 1000)
    (by rw [abs_of_nonneg hq2a]; linarith [show (1:ℚ) / 2 ^ 200 ≤ 1 / 8000 from by norm_num])
    (by rw [abs_of_nonneg hq2a]; linarith [show (2:ℚ) ^ 55 ≤ 2 ^ 200 from by norm_num])
  rw [abs_of_nonneg hq2a] at r2
  obtain ⟨l2, u2⟩ := rel_bounds f2 _ hq2a r2
  refine ⟨f2, ?_, ?_, ?_⟩
  · rw [e2]; simp
  · have : (1 : ℚ) / 2 ^ 14 ≤ 1 / 8000 / 2 := by norm_num
    linarith
  · have : (2 : ℚ) * 2 ^ 55 = 2 ^ 56 := by norm_num
    linarith

theorem tiny_le_wide (x : ℚ) (h : 1 / 2 ^ 1022 ≤ x) : (2 : ℚ) ^ (-1022 : ℤ) ≤ x := by
  have e : (2 : ℚ) ^ (-1022 : ℤ) = 1 / 2 ^ 1022 := by
    rw [zpow_neg, one_div, zpow_ofNat]
  rw [e]; exact h

theorem round_rel_wide (neg : Bool) (q : ℚ) (h1 : 1 / 2 ^ 1022 ≤ |q|)
    (h2 : |q| ≤ 2 ^ 1022) :
    ∃ r, round neg q = num neg r ∧ |r - (|q|)| ≤ |q| / 2 ^ 53 := by
  have hX : (0 : ℚ) ≤ 2 ^ 1022 := le_of_lt (pow_pos (by norm_num) 1022)
  exact ⟨roundMag true q, round_of_le _ _ (by linarith),
    roundMag_rel true q (Or.inr (tiny_le_wide _ h1))⟩

theorem speed_times_duration (sg st : Bool) (dd t T : ℚ) (hd1 : 1 / 2 ^ 14 ≤ dd)
    (hd2 : dd ≤ 2 ^ 56) (hT : 1 ≤ T) (hTb : 2 ^ 56 * T ≤ 2 ^ 1022) (ht1 : 1 / T ≤ t)
    (ht2 : t ≤ T) :
    ∃ v pr, num sg dd / num st t = num (xor sg st) v
      ∧ num (xor sg st) v * num st t = num sg pr
      ∧ |v * t - dd| ≤ dd / 2 ^ 53
      ∧ |pr - dd| ≤ dd * (2 / 2 ^ 53 + 1 / 2 ^ 106) := by
  have hTpos : 0 < T := lt_of_lt_of_le one_pos hT
  have htpos : 0 < t := lt_of_lt_of_le (by positivity) ht1
  have hdpos : 0 < dd := lt_of_lt_of_le (by norm_num) hd1
  have hXpos : (0 : ℚ) < 2 ^ 1022 := pow_pos (by norm_num) 1022
  have hTa : 2 ^ 14 * T ≤ (2 : ℚ) ^ 1022 := by
    have : (2 : ℚ) ^ 14 * T ≤ 2 ^ 56 * T :=
      mul_le_mul_of_nonneg_right (by norm_num) (le_of_lt hTpos)
    linarith
  have hq3a : 0 ≤ dd / t := div_nonneg (le_of_lt hdpos) (le_of_lt htpos)
  have hq3l : 1 / 2 ^ 1022 ≤ dd / t := by
    rw [le_div_iff₀ htpos, div_mul_eq_mul_div, one_mul, div_le_iff₀ hXpos]
    calc t ≤ T := ht2
      _ = 1 / 2 ^ 14 * (2 ^ 14 * T) := by field_simp
      _ ≤ 1 / 2 ^ 14 * 2 ^ 1022 := mul_le_mul_of_nonneg_left hTa (by norm_num)
      _ ≤ dd * 2 ^ 1022 := mul_le_mul_of_nonneg_right hd1 (le_of_lt hXpos)
  have hq3u : dd / t ≤ 2 ^ 1022 := by
    rw [div_le_iff₀ htpos]
    have h1 : (1 : ℚ) ≤ T * t := by
      have := mul_le_mul_of_nonneg_left ht1 (le_of_lt hTpos)
      rwa [mul_one_div_cancel (ne_of_gt hTpos)] at this
    calc dd ≤ 2 ^ 56 := hd2
      _ = 2 ^ 56 * 1 := by ring
      _ ≤ 2 ^ 56 * (T * t) := mul_le_mul_of_nonneg_left h1 (by norm_num)
      _ = 2 ^ 56 * T * t := by ring
      _ ≤ 2 ^ 1022 * t := mul_le_mul_of_nonneg_right hTb (le_of_lt htpos)
  obtain ⟨v, ev, rv⟩ := round_rel_wide (xor sg st) (dd / t)
    (by rw [abs_of_nonneg hq3a]; exact hq3l) (by rw [abs_of_nonneg hq3a]; exact hq3u)
  rw [abs_of_nonneg hq3a] at rv
  have hqt : dd / t * t = dd := div_mul_cancel₀ dd (ne_of_gt htpos)
  have hvt : |v * t - dd| ≤ dd / 2 ^ 53 := by
    have e : v * t - dd = (v - dd / t) * t := by rw [sub_mul, hqt]
    rw [e, abs_mul, abs_of_pos htpos]
    calc |v - dd / t| * t ≤ dd / t / 2 ^ 53 * t := mul_le_mul_of_nonneg_right rv (le_of_lt htpos)
      _ = dd / 2 ^ 53 := by
          field_simp
          ring
  obtain ⟨hvt1, hvt2⟩ := abs_le.mp hvt
  have hu : dd / 2 ^ 53 ≤ dd / 2 :=
    div_le_div_of_nonneg_left (le_of_lt hdpos) (by norm_num) (by norm_num)
  have hq4a : 0 ≤ v * t := by linarith
  have hq4l : 1 / 2 ^ 15 ≤ v * t := by
    have e : (1 : ℚ) / 2 ^ 15 = 1 / 2 ^ 14 / 2 := by norm_num
    rw [e]; linarith
  have hq4u : v * t ≤ 2 ^ 57 := by
    have e : (2 : ℚ) ^ 57 = 2 * 2 ^ 56 := by norm_num
    rw [e]; linarith
  have hs1 : (1 : ℚ) / 2 ^ 1022 ≤ 1 / 2 ^ 15 :=
    one_div_le_one_div_of_le (by norm_num) (pow_le_pow_right₀ (by norm_num) (by norm_num))
  have hs2 : (2 : ℚ) ^ 57 ≤ 2 ^ 1022 := pow_le_pow_right₀ (by norm_num) (by norm_num)
  obtain ⟨pr, ep, rp⟩ := round_rel_wide (xor (xor sg st) st) (v * t)
    (by rw [abs_of_nonneg hq4a]; exact le_trans hs1 hq4l)
    (by rw [abs_of_nonneg hq4a]; exact le_trans hq4u hs2)
  rw [abs_of_nonneg hq4a] at rp
  refine ⟨v, pr, ?_, ?_, hvt, ?_⟩
  · rw [num_div_num _ _ _ _ (ne_of_gt htpos), ev]
  · have hx : xor (xor sg st) st = sg := by cases sg <;> cases st <;> rfl
    rw [num_mul_num, ep, hx]
  · obtain ⟨rp1, rp2⟩ := abs_le.mp rp
    have hvt_le : v * t ≤ dd + dd / 2 ^ 53 := by linarith
    have h1 : v * t / 2 ^ 53 ≤ (dd + dd / 2 ^ 53) / 2 ^ 53 :=
      div_le_div_of_nonneg_right hvt_le (by norm_num)
    have h2 : dd * (2 / 2 ^ 53 + 1 / 2 ^ 106)
        = (dd + dd / 2 ^ 53) / 2 ^ 53 + dd / 2 ^ 53 := by
      field_simp; ring
    rw [abs_le]
    constructor <;> linarith

end Binary64

theorem digitChar_isDigit (n : ℕ) (h : n < 10) : (Nat.digitChar n).isDigit = true := by
  interval_cases n <;> rfl

theorem toDigitsCore_isDigit (fuel : ℕ) :
    ∀ (n : ℕ) (ds : List Char), (∀ c ∈ ds, c.isDigit = true) →
      ∀ c ∈ Nat.toDigitsCore 10 fuel n ds, c.isDigit = true := by
  induction fuel with
  | zero => intro n ds hds; simpa [Nat.toDigitsCore] using hds
  | succ f ih =>
    intro n ds hds
    have hd : ∀ c ∈ Nat.digitChar (n % 10) :: ds, c.isDigit = true := by
      intro c hc
      rcases List.mem_cons.mp hc with h | h
      · rw [h]; exact digitChar_isDigit _ (Nat.mod_lt _ (by norm_num))
      · exact hds c h
    simp only [Nat.toDigitsCore]
    split
    · exact hd
    · exact ih _ _ hd

theorem toDigitsCore_ne_nil (fuel : ℕ) :
    ∀ (n : ℕ) (ds : List Char), ds ≠ [] → Nat.toDigitsCore 10 fuel n ds ≠ [] := by
  induction fuel with
  | zero => intro n ds hds; simpa [Nat.toDigitsCore] using hds
  | succ f ih =>
    intro n ds _
    simp only [Nat.toDigitsCore]
    split
    · simp
    · exact ih _ _ (by simp)

theorem repr_digits (n : ℕ) :
    (Nat.repr n).data ≠ [] ∧ ∀ c ∈ (Nat.repr n).data, c.isDigit = true := by
  constructor
  · simp only [Nat.repr, Nat.toDigits, List.asString, Nat.toDigitsCore]
    split
    · simp
    · exact toDigitsCore_ne_nil _ _ _ (by simp)
  · simp only [Nat.repr, Nat.toDigits, List.asString]
    exact toDigitsCore_isDigit _ _ _ (by simp)

theorem twoDigits_data :
    ∀ k, k < 100 → (twoDigits k).data = [Nat.digitChar (k / 10), Nat.digitChar (k % 10)] := by
  decide!

theorem roundHalfEven_tie (n d : ℕ) (hd : 0 < d)
    (h : |((roundHalfEven n d : ℕ) : ℚ) - (n : ℚ) / (d : ℚ)| = 1 / 2) :
    roundHalfEven n d % 2 = 0 := by
  have hdq : (0 : ℚ) < (d : ℚ) := by exact_mod_cast hd
  have hn : (n : ℚ) = (d : ℚ) * ((n / d : ℕ) : ℚ) + ((n % d : ℕ) : ℚ) := by
    exact_mod_cast (Nat.div_add_mod n d).symm
  have hquot : (n : ℚ) / (d : ℚ) = ((n / d : ℕ) : ℚ) + ((n % d : ℕ) : ℚ) / (d : ℚ) := by
    have hne : (d : ℚ) ≠ 0 := ne_of_gt hdq
    field_simp
    linarith
  have hr0 : (0 : ℚ) ≤ ((n % d : ℕ) : ℚ) / (d : ℚ) := by positivity
  have hr1 : ((n % d : ℕ) : ℚ) / (d : ℚ) < 1 := by
    rw [div_lt_one hdq]; exact_mod_cast Nat.mod_lt n hd
  rw [hquot] at h
  unfold roundHalfEven at h ⊢
  simp only at h ⊢
  split_ifs at h ⊢ with h1 h2 h3
  · exfalso
    have hlt : ((n % d : ℕ) : ℚ) / (d : ℚ) < 1 / 2 := by
      rw [div_lt_iff₀ hdq]
      have : (2 : ℚ) * ((n % d : ℕ) : ℚ) < (d : ℚ) := by exact_mod_cast h1
      linarith
    have e : ((n / d : ℕ) : ℚ) - (((n / d : ℕ) : ℚ) + ((n % d : ℕ) : ℚ) / (d : ℚ))
        = -(((n % d : ℕ) : ℚ) / (d : ℚ)) := by ring
    rw [e, abs_neg, abs_of_nonneg hr0] at h
    linarith
  · exfalso
    have hlt : 1 / 2 < ((n % d : ℕ) : ℚ) / (d : ℚ) := by
      rw [lt_div_iff₀ hdq]
      have : (d : ℚ) < 2 * ((n % d : ℕ) : ℚ) := by exact_mod_cast h2
      linarith
    have e : (((n / d + 1 : ℕ)) : ℚ) - (((n / d : ℕ) : ℚ) + ((n % d : ℕ) : ℚ) / (d : ℚ))
        = 1 - ((n % d : ℕ) : ℚ) / (d : ℚ) := by push_cast; ring
    rw [e, abs_of_nonneg (by linarith)] at h
    linarith
  · exact h3
  · omega

namespace Binary64

theorem fmtF2_fixed (s : Bool) (a : ℚ) (ha : 0 ≤ a) :
    ∃ n : ℕ, |(n : ℚ) / 100 - a| ≤ 1 / 200
      ∧ (|(n : ℚ) / 100 - a| = 1 / 200 → n % 2 = 0)
      ∧ (fmtF2 (num s a)).data
          = (if s then ['-'] else []) ++ (Nat.repr (n / 100)).data
              ++ ['.', Nat.digitChar (n % 100 / 10), Nat.digitChar (n % 10)] := by
  have hden : (0 : ℚ) < (a.den : ℚ) := by exact_mod_cast a.den_pos
  have habs : a = ((a.num.natAbs : ℕ) : ℚ) / (a.den : ℚ) := by
    rw [← abs_eq_natAbs_div, abs_of_nonneg ha]
  have hx : (((a.num.natAbs * 100 : ℕ)) : ℚ) / (a.den : ℚ) = 100 * a := by
    conv_rhs => rw [habs]
    push_cast; ring
  have h100 : (roundHalfEven (a.num.natAbs * 100) a.den : ℚ) / 100 - a
      = ((roundHalfEven (a.num.natAbs * 100) a.den : ℚ) - 100 * a) / 100 := by ring
  refine ⟨roundHalfEven (a.num.natAbs * 100) a.den, ?_, ?_, ?_⟩
  · have hnear := roundHalfEven_near (a.num.natAbs * 100) a.den a.den_pos
    rw [hx] at hnear
    rw [h100, abs_div, abs_of_pos (by norm_num : (0 : ℚ) < 100), div_le_iff₀ (by norm_num)]
    linarith
  · intro htie
    apply roundHalfEven_tie (a.num.natAbs * 100) a.den a.den_pos
    rw [hx]
    rw [h100, abs_div, abs_of_pos (by norm_num : (0 : ℚ) < 100),
      div_eq_iff (by norm_num)] at htie
    rw [htie]; norm_num
  · have hk := twoDigits_data (roundHalfEven (a.num.natAbs * 100) a.den % 100)
      (Nat.mod_lt _ (by norm_num))
    have hmod : roundHalfEven (a.num.natAbs * 100) a.den % 100 % 10
        = roundHalfEven (a.num.natAbs * 100) a.den % 10 := by omega
    rw [hmod] at hk
    simp only [fmtF2, String.data_append, hk]
    cases s <;> simp


/-! ### The dispatch on the label -/

theorem switch_running (action : Int) (dist duration weight height : Binary64)
    (lengthPool countPool : Int) :
    trainingSwitch action "Бег" dist duration weight height lengthPool countPool
      = some (meanSpeed action dist duration,
          RunningSpentCalories (meanSpeed action dist duration) duration weight) := by
  simp [trainingSwitch]

theorem switch_walking (action : Int) (dist duration weight height : Binary64)
    (lengthPool countPool : Int) :
    trainingSwitch action "Ходьба" dist duration weight height lengthPool countPool
      = some (meanSpeed action dist duration,
          WalkingSpentCalories (meanSpeed action dist duration) duration weight height) := by
  have hw : ("Ходьба" : String) ≠ "Бег" := by decide
  simp [trainingSwitch, hw]

theorem switch_swimming (action : Int) (dist duration weight height : Binary64)
    (lengthPool countPool : Int) :
    trainingSwitch action "Плавание" dist duration weight height lengthPool countPool
      = some (swimmingMeanSpeed lengthPool countPool duration,
          SwimmingSpentCalories (swimmingMeanSpeed lengthPool countPool duration) duration
            weight) := by
  have h1 : ("Плавание" : String) ≠ "Бег" := by decide
  have h2 : ("Плавание" : String) ≠ "Ходьба" := by decide
  simp [trainingSwitch, h1, h2]

theorem ShowTrainingInfo_eq_Sprintf (action : Int) (trainingType : String)
    (duration weight height : Binary64) (lengthPool countPool : Int)
    (speed calories : Binary64)
    (h : trainingSwitch action trainingType (distance action) duration weight height
        lengthPool countPool = some (speed, calories)) :
    ShowTrainingInfo action trainingType duration weight height lengthPool countPool
      = Sprintf trainingType duration (distance action) speed calories := by
  simp [ShowTrainingInfo, h]

theorem meanSpeed_of_ne_zero (action : Int) (x : Binary64) (s : Bool) (t : ℚ) (ht : t ≠ 0) :
    meanSpeed action x (num s t) = x / num s t := by
  simp [meanSpeed, isZero, ht]

end Binary64

/-! ## Claims that depend on rounding, overflow or the rendering of the numbers -/

/-- Claim C12, as stated, fails: the report of the code is not the English template (it
does not even begin with "Training type: "), and a value that is not finite is not
rendered with two decimals: walking with height `0` reports "+Inf" calories. -/
theorem ShowTrainingInfo_template_counterexample :
    Binary64.ShowTrainingInfo 9000 "Бег" (.num false 1) (.num false 75) (.num false 180) 0 0
        ≠ "Training type: Бег\nDuration: 1.00 h.\nDistance: 5.85 km.\nSpeed: 5.85 km/h\nCalories burned: 848.19\n"
      ∧ ¬ ("Training type: ".data
            <+: (Binary64.ShowTrainingInfo 9000 "Бег" (.num false 1) (.num false 75)
                  (.num false 180) 0 0).data)
      ∧ Binary64.ShowTrainingInfo 9000 "Ходьба" (.num false 1) (.num false 75) (.num false 0)
          0 0
        = "Тип тренировки: Ходьба\nДлительность: 1.00 ч.\nДистанция: 5.85 км.\nСкорость: 5.85 км/ч\nСожгли калорий: +Inf\n" := by
  refine ⟨?_, ?_, ?_⟩ <;> decide!

/-- Claim C12, amended: for every recognized label ("Бег", "Ходьба", "Плавание") and all
other inputs, the string `ShowTrainingInfo` returns is the five-line Russian template
filled in this order: the label unchanged, then the duration, the distance
`distance action`, the speed and the calories of the branch, each rendered by `%.2f`.
Every finite value is rendered in fixed point with exactly two decimals: a minus sign when
the sign bit is set, the decimal digits of `n / 100`, a point, and the two digits of
`n % 100`, where `n` hundredths is the multiple of `0.01` nearest to the magnitude, the
even one at a tie.  A value that is not finite is rendered as "+Inf", "-Inf" or "NaN".
The values are those of the float64 computation: 100 steps in one hour are reported as
"0.07" km. -/
theorem ShowTrainingInfo_template (action : Int) (trainingType : String)
    (duration weight height : Binary64) (lengthPool countPool : Int) (s : Bool) (a : ℚ)
    (hl : trainingType = "Бег" ∨ trainingType = "Ходьба" ∨ trainingType = "Плавание")
    (ha : 0 ≤ a) :
    (∃ speed calories : Binary64,
        Binary64.trainingSwitch action trainingType (Binary64.distance action) duration
            weight height lengthPool countPool = some (speed, calories)
        ∧ Binary64.ShowTrainingInfo action trainingType duration weight height lengthPool
            countPool
          = "Тип тренировки: " ++ trainingType
              ++ "\nДлительность: " ++ Binary64.fmtF2 duration ++ " ч."
              ++ "\nДистанция: " ++ Binary64.fmtF2 (Binary64.distance action) ++ " км."
              ++ "\nСкорость: " ++ Binary64.fmtF2 speed ++ " км/ч"
              ++ "\nСожгли калорий: " ++ Binary64.fmtF2 calories ++ "\n")
      ∧ (∃ n : ℕ, |(n : ℚ) / 100 - a| ≤ 1 / 200
          ∧ (|(n : ℚ) / 100 - a| = 1 / 200 → n % 2 = 0)
          ∧ (Nat.repr (n / 100)).data ≠ []
          ∧ (∀ c ∈ (Nat.repr (n / 100)).data, c.isDigit = true)
          ∧ (Nat.digitChar (n % 100 / 10)).isDigit = true
          ∧ (Nat.digitChar (n % 10)).isDigit = true
          ∧ (Binary64.fmtF2 (.num s a)).data
              = (if s then ['-'] else []) ++ (Nat.repr (n / 100)).data
                  ++ ['.', Nat.digitChar (n % 100 / 10), Nat.digitChar (n % 10)])
      ∧ (Binary64.fmtF2 (.inf false) = "+Inf" ∧ Binary64.fmtF2 (.inf true) = "-Inf"
          ∧ Binary64.fmtF2 .nan = "NaN")
      ∧ Binary64.ShowTrainingInfo 100 "Бег" (.num false 1) (.num false 75) (.num false 180)
          0 0
        = "Тип тренировки: Бег\nДлительность: 1.00 ч.\nДистанция: 0.07 км.\nСкорость: 0.07 км/ч\nСожгли калорий: 9.42\n" := by
  refine ⟨?_, ?_, ⟨rfl, rfl, rfl⟩, by decide!⟩
  · have hsw : ∃ speed calories : Binary64,
        Binary64.trainingSwitch action trainingType (Binary64.distance action) duration
          weight height lengthPool countPool = some (speed, calories) := by
      rcases hl with hl | hl | hl <;> subst hl
      · exact ⟨_, _, Binary64.switch_running _ _ _ _ _ _ _⟩
      · exact ⟨_, _, Binary64.switch_walking _ _ _ _ _ _ _⟩
      · exact ⟨_, _, Binary64.switch_swimming _ _ _ _ _ _ _⟩
    obtain ⟨speed, calories, hsc⟩ := hsw
    exact ⟨speed, calories, hsc,
      by rw [Binary64.ShowTrainingInfo_eq_Sprintf _ _ _ _ _ _ _ _ _ hsc]; rfl⟩
  · obtain ⟨n, h1, h2, h3⟩ := Binary64.fmtF2_fixed s a ha
    exact ⟨n, h1, h2, (repr_digits _).1, (repr_digits _).2,
      digitChar_isDigit _ (by omega), digitChar_isDigit _ (by omega), h3⟩

/-- Witness of C12 at the walking label, 9000 steps, one hour, 75 kg, 180 cm, and the
value `5.855`. -/
theorem ShowTrainingInfo_template_witness :
    ∃ speed calories : Binary64,
      Binary64.trainingSwitch 9000 "Ходьба" (Binary64.distance 9000) (.num false 1)
          (.num false 75) (.num false 180) 0 0 = some (speed, calories)
      ∧ Binary64.ShowTrainingInfo 9000 "Ходьба" (.num false 1) (.num false 75)
          (.num false 180) 0 0
        = "Тип тренировки: " ++ "Ходьба"
            ++ "\nДлительность: " ++ Binary64.fmtF2 (.num false 1) ++ " ч."
            ++ "\nДистанция: " ++ Binary64.fmtF2 (Binary64.distance 9000) ++ " км."
            ++ "\nСкорость: " ++ Binary64.fmtF2 speed ++ " км/ч"
            ++ "\nСожгли калорий: " ++ Binary64.fmtF2 calories ++ "\n" :=
  (ShowTrainingInfo_template 9000 "Ходьба" (.num false 1) (.num false 75) (.num false 180)
    0 0 false 5.855 (Or.inr (Or.inl rfl)) (by norm_num)).1

/-- Claim C14, as stated, fails on float64 values: for 3 steps in 1.5 hours the
distance is `0.0019500000000000001` and the speed `0.0013000000000000002`; the speed times
the duration is not the distance, neither as the exact product of the two float64 values
nor as their float64 product (`0.0019500000000000003`). -/
theorem meanSpeed_mul_duration_counterexample :
    Binary64.distance 3 = .num false (8992787735933407 / 2 ^ 62)
      ∧ Binary64.meanSpeed 3 (Binary64.distance 3) (.num false 1.5)
          = .num false (5995191823955605 / 2 ^ 62)
      ∧ (5995191823955605 / 2 ^ 62 : ℚ) * 1.5 ≠ 8992787735933407 / 2 ^ 62
      ∧ Binary64.meanSpeed 3 (Binary64.distance 3) (.num false 1.5) * .num false 1.5
          = .num false (281024616747919 / 2 ^ 57)
      ∧ Binary64.meanSpeed 3 (Binary64.distance 3) (.num false 1.5) * .num false 1.5
          ≠ Binary64.distance 3 := by
  refine ⟨?_, ?_, ?_, ?_, ?_⟩
  · decide!
  · decide!
  · norm_num
  · decide!
  · decide!

/-- Claim C14, amended: for the running label "Бег" and the walking label "Ходьба" the
speed `ShowTrainingInfo` computes is `meanSpeed action (distance action) duration`.  For
every action count of a 64-bit `int` and every finite duration, of either sign, whose
magnitude `t` satisfies `2 ^ (-900) ≤ t ≤ 2 ^ 900`, that speed times the duration agrees
with the distance `dd` up to rounding: the exact product of the float64 speed and the
duration differs from `dd` by at most `dd / 2 ^ 53`, their float64 product by at most
`dd * (2 / 2 ^ 53 + 1 / 2 ^ 106)`, and the float64 product has the sign of the distance. -/
theorem meanSpeed_mul_duration (action : Int) (st : Bool) (t : ℚ)
    (duration weight height : Binary64) (lengthPool countPool : Int)
    (ha : |action| ≤ 2 ^ 63) (ht1 : 1 / 2 ^ 900 ≤ t) (ht2 : t ≤ 2 ^ 900) :
    (Binary64.trainingSwitch action "Бег" (Binary64.distance action) duration weight height
        lengthPool countPool).map Prod.fst
        = some (Binary64.meanSpeed action (Binary64.distance action) duration)
      ∧ (Binary64.trainingSwitch action "Ходьба" (Binary64.distance action) duration weight
          height lengthPool countPool).map Prod.fst
        = some (Binary64.meanSpeed action (Binary64.distance action) duration)
      ∧ ∃ dd v pr : ℚ,
          Binary64.distance action = .num (decide (action < 0)) dd
          ∧ Binary64.meanSpeed action (Binary64.distance action) (.num st t)
              = .num (xor (decide (action < 0)) st) v
          ∧ Binary64.meanSpeed action (Binary64.distance action) (.num st t) * .num st t
              = .num (decide (action < 0)) pr
          ∧ |v * t - dd| ≤ dd / 2 ^ 53
          ∧ |pr - dd| ≤ dd * (2 / 2 ^ 53 + 1 / 2 ^ 106) := by
  have hTpos : (0 : ℚ) < 2 ^ 900 := pow_pos (by norm_num) 900
  have htpos : 0 < t := lt_of_lt_of_le (div_pos one_pos hTpos) ht1
  refine ⟨by rw [Binary64.switch_running]; rfl, by rw [Binary64.switch_walking]; rfl, ?_⟩
  by_cases h0 : action = 0
  · subst h0
    refine ⟨0, 0, 0, Binary64.distance_zero, ?_, ?_, by norm_num, by norm_num⟩
    · rw [Binary64.meanSpeed_of_ne_zero _ _ _ _ (ne_of_gt htpos), Binary64.distance_zero,
        Binary64.zero_div_num _ _ _ (ne_of_gt htpos)]
      rfl
    · rw [Binary64.meanSpeed_of_ne_zero _ _ _ _ (ne_of_gt htpos), Binary64.distance_zero,
        Binary64.zero_div_num _ _ _ (ne_of_gt htpos), Binary64.zero_mul_num]
      cases st <;> rfl
  · obtain ⟨dd, hdd, hd1, hd2⟩ := Binary64.distance_rel action h0 ha
    have hTb : (2 : ℚ) ^ 56 * 2 ^ 900 ≤ 2 ^ 1022 := by
      rw [← pow_add]
      exact pow_le_pow_right₀ (by norm_num) (by norm_num)
    obtain ⟨v, pr, hv, hp, e1, e2⟩ :=
      Binary64.speed_times_duration (decide (action < 0)) st dd t (2 ^ 900) hd1 hd2
        (one_le_pow₀ (by norm_num)) hTb ht1 ht2
    refine ⟨dd, v, pr, hdd, ?_, ?_, e1, e2⟩
    · rw [Binary64.meanSpeed_of_ne_zero _ _ _ _ (ne_of_gt htpos), hdd, hv]
    · rw [Binary64.meanSpeed_of_ne_zero _ _ _ _ (ne_of_gt htpos), hdd, hv, hp]

/-- Witness of C14 at 9000 steps in 2 hours. -/
theorem meanSpeed_mul_duration_witness :
    ∃ dd v pr : ℚ,
      Binary64.distance 9000 = .num (decide ((9000 : Int) < 0)) dd
      ∧ Binary64.meanSpeed 9000 (Binary64.distance 9000) (.num false 2)
          = .num (xor (decide ((9000 : Int) < 0)) false) v
      ∧ Binary64.meanSpeed 9000 (Binary64.distance 9000) (.num false 2) * .num false 2
          = .num (decide ((9000 : Int) < 0)) pr
      ∧ |v * 2 - dd| ≤ dd / 2 ^ 53
      ∧ |pr - dd| ≤ dd * (2 / 2 ^ 53 + 1 / 2 ^ 106) :=
  (meanSpeed_mul_duration 9000 false 2 (.num false 2) (.num false 75) (.num false 180) 0 0
    (by norm_num)
    (le_trans ((div_le_one (pow_pos (by norm_num) 900)).mpr (one_le_pow₀ (by norm_num)))
      (by norm_num))
    (le_trans (by norm_num : (2 : ℚ) ≤ 2 ^ 1) (pow_le_pow_right₀ (by norm_num) (by norm_num)))
    ).2.2

/-- Claim C16, as stated, fails: swimming with duration `0` and the finite weight
`2 ^ 1023`: the product `2.2 * weight` overflows to `+Inf`, and `+Inf * 0` is NaN, so the
calories computed and reported are NaN, not `0`.  The same happens for running with an
infinite weight, and for walking with a NaN height (which satisfies `height != 0`). -/
theorem ShowTrainingInfo_zero_duration_counterexample :
    Binary64.trainingSwitch 9000 "Плавание" (Binary64.distance 9000) (.num false 0)
        (.num false (2 ^ 1023)) (.num false 180) 25 40
        = some (.num false 0, .nan)
      ∧ Binary64.ShowTrainingInfo 9000 "Плавание" (.num false 0) (.num false (2 ^ 1023))
          (.num false 180) 25 40
        = "Тип тренировки: Плавание\nДлительность: 0.00 ч.\nДистанция: 5.85 км.\nСкорость: 0.00 км/ч\nСожгли калорий: NaN\n"
      ∧ Binary64.trainingSwitch 9000 "Бег" (Binary64.distance 9000) (.num false 0)
          (.inf false) (.num false 180) 25 40
        = some (.num false 0, .nan)
      ∧ Binary64.trainingSwitch 9000 "Ходьба" (Binary64.distance 9000) (.num false 0)
          (.num false 75) .nan 25 40
        = some (.num false 0, .nan) := by
  refine ⟨?_, ?_, ?_, ?_⟩ <;> decide!

/-- Claim C16, amended: for each of the three recognized labels, when the duration is a
zero (of either sign), `ShowTrainingInfo` computes and reports the speed `0` and calories
that are a zero or NaN, whatever the other inputs are.  The calories are a zero for
running with every finite weight, for walking with every finite weight (magnitude up to
`2 ^ 1024`) and every height that is neither a zero nor NaN, and for swimming with every
finite weight of magnitude up to `2 ^ 1022`. -/
theorem ShowTrainingInfo_zero_duration (action : Int) (sd : Bool)
    (weight height : Binary64) (lengthPool countPool : Int) :
    (∀ label : String, label = "Бег" ∨ label = "Ходьба" ∨ label = "Плавание" →
        ∃ calories, Binary64.trainingSwitch action label (Binary64.distance action)
              (.num sd 0) weight height lengthPool countPool
              = some (.num false 0, calories)
          ∧ Binary64.ShowTrainingInfo action label (.num sd 0) weight height lengthPool
              countPool
            = Binary64.Sprintf label (.num sd 0) (Binary64.distance action) (.num false 0)
                calories
          ∧ (calories = .nan ∨ ∃ sg, calories = .num sg 0))
      ∧ (∀ (sw : Bool) (w : ℚ), weight = .num sw w → 0 ≤ w →
          (∃ sg, Binary64.trainingSwitch action "Бег" (Binary64.distance action)
              (.num sd 0) weight height lengthPool countPool
              = some (.num false 0, .num sg 0))
          ∧ (w ≤ 2 ^ 1024 → height.isZero = false → height ≠ .nan →
              ∃ sg, Binary64.trainingSwitch action "Ходьба" (Binary64.distance action)
                (.num sd 0) weight height lengthPool countPool
                = some (.num false 0, .num sg 0))
          ∧ (w ≤ 2 ^ 1022 →
              ∃ sg, Binary64.trainingSwitch action "Плавание" (Binary64.distance action)
                (.num sd 0) weight height lengthPool countPool
                = some (.num false 0, .num sg 0))) := by
  constructor
  · intro label hl
    have key : ∃ calories, Binary64.trainingSwitch action label (Binary64.distance action)
          (.num sd 0) weight height lengthPool countPool = some (.num false 0, calories)
        ∧ (calories = .nan ∨ ∃ sg, calories = .num sg 0) := by
      rcases hl with hl | hl | hl <;> subst hl
      · exact ⟨_, by rw [Binary64.switch_running, Binary64.meanSpeed_zero_duration],
          Binary64.running_zero_or_nan _ _ _⟩
      · exact ⟨_, by rw [Binary64.switch_walking, Binary64.meanSpeed_zero_duration],
          Binary64.walking_zero_or_nan _ _ _ _⟩
      · exact ⟨_, by rw [Binary64.switch_swimming, Binary64.swimmingMeanSpeed_zero_duration],
          Binary64.swimming_zero_or_nan _ _ _⟩
    obtain ⟨calories, hsw, hc⟩ := key
    exact ⟨calories, hsw, Binary64.ShowTrainingInfo_eq_Sprintf _ _ _ _ _ _ _ _ _ hsw, hc⟩
  · intro sw w hwe hw0
    subst hwe
    refine ⟨?_, ?_, ?_⟩
    · obtain ⟨sg, hsg⟩ := Binary64.running_zero_duration sd sw w
      exact ⟨sg, by rw [Binary64.switch_running, Binary64.meanSpeed_zero_duration, hsg]⟩
    · intro hw hz hn
      obtain ⟨sg, hsg⟩ := Binary64.walking_zero_duration sd sw w height hw0 hw hz hn
      exact ⟨sg, by rw [Binary64.switch_walking, Binary64.meanSpeed_zero_duration, hsg]⟩
    · intro hw
      obtain ⟨sg, hsg⟩ := Binary64.swimming_zero_duration sd sw w hw0 hw
      exact ⟨sg, by
        rw [Binary64.switch_swimming, Binary64.swimmingMeanSpeed_zero_duration, hsg]⟩

/-- Witness of C16 for the swimming label at 9000 actions, weight 75, height 180, a 25 m
pool and 40 laps: speed `0` and calories a zero. -/
theorem ShowTrainingInfo_zero_duration_witness :
    ∃ sg, Binary64.trainingSwitch 9000 "Плавание" (Binary64.distance 9000) (.num false 0)
        (.num false 75) (.num false 180) 25 40 = some (.num false 0, .num sg 0) :=
  ((ShowTrainingInfo_zero_duration 9000 false (.num false 75) (.num false 180) 25 40).2
    false 75 rfl (by norm_num)).2.2 (by norm_num)

/-- Claim C18, as stated, fails: with the non-negative finite inputs speed `2 ^ 1023`,
duration `0`, weight `1` the running formula overflows to `+Inf` and then multiplies by
the zero duration: the result is NaN, which is not `>= 0`.  Likewise the walking formula
at speed `2 ^ 600`, duration `0`, weight `1`, height `180`, and the swimming formula at
speed `1`, duration `0`, weight `2 ^ 1023`. -/
theorem calories_nonneg_counterexample :
    (Binary64.num false (2 ^ 1023)).geZero = true
      ∧ (Binary64.num false 0).geZero = true
      ∧ (Binary64.num false 1).geZero = true
      ∧ Binary64.RunningSpentCalories (.num false (2 ^ 1023)) (.num false 0) (.num false 1)
          = .nan
      ∧ (Binary64.RunningSpentCalories (.num false (2 ^ 1023)) (.num false 0)
          (.num false 1)).geZero = false
      ∧ Binary64.WalkingSpentCalories (.num false (2 ^ 600)) (.num false 0) (.num false 1)
          (.num false 180) = .nan
      ∧ Binary64.SwimmingSpentCalories (.num false 1) (.num false 0)
          (.num false (2 ^ 1023)) = .nan := by
  refine ⟨?_, ?_, ?_, ?_, ?_, ?_, ?_⟩ <;> decide!

/-- Claim C18, amended: for all speed, duration and weight that are `>= 0` and every
height `> 0`, `RunningSpentCalories`, `WalkingSpentCalories` and `SwimmingSpentCalories`
each return a value that is `>= 0` (possibly `+Inf`) or NaN, never a negative value; when
moreover the duration and the weight are finite and positive and the height is finite,
the value is `>= 0`; and `distance n >= 0` for every `n >= 0`. -/
theorem calories_nonneg (speed duration weight height : Binary64) (n : Int)
    (hs : speed.geZero = true) (hd : duration.geZero = true) (hw : weight.geZero = true)
    (hh : height.gtZero = true) (hn : 0 ≤ n) :
    ((Binary64.RunningSpentCalories speed duration weight).geZero = true
        ∨ Binary64.RunningSpentCalories speed duration weight = .nan)
      ∧ ((Binary64.WalkingSpentCalories speed duration weight height).geZero = true
        ∨ Binary64.WalkingSpentCalories speed duration weight height = .nan)
      ∧ ((Binary64.SwimmingSpentCalories speed duration weight).geZero = true
        ∨ Binary64.SwimmingSpentCalories speed duration weight = .nan)
      ∧ (duration.gtZero = true → duration.isFinite = true → weight.gtZero = true →
          weight.isFinite = true → height.isFinite = true →
          (Binary64.RunningSpentCalories speed duration weight).geZero = true
            ∧ (Binary64.WalkingSpentCalories speed duration weight height).geZero = true
            ∧ (Binary64.SwimmingSpentCalories speed duration weight).geZero = true)
      ∧ (Binary64.distance n).geZero = true := by
  refine ⟨Binary64.running_geZero_or_nan _ _ _ hs hd hw,
    Binary64.walking_geZero_or_nan _ _ _ _ hd hw hh,
    Binary64.swimming_geZero_or_nan _ _ _ hs hd hw, ?_, Binary64.distance_geZero n hn⟩
  intro hd1 hd2 hw1 hw2 hh2
  obtain ⟨d, rfl, hd0⟩ := Binary64.gtZero_finite duration hd1 hd2
  obtain ⟨w, rfl, hw0⟩ := Binary64.gtZero_finite weight hw1 hw2
  obtain ⟨h, rfl, hh0⟩ := Binary64.gtZero_finite height hh hh2
  exact ⟨Binary64.running_geZero _ _ _ hs hd0 hw0,
    Binary64.walking_geZero _ _ _ _ hs hw hd0 hh0,
    Binary64.swimming_geZero _ _ _ hs hd0 hw0⟩

/-- Witness of C18 at speed 5.85, duration 1, weight 75, height 180 and 9000 steps. -/
theorem calories_nonneg_witness :
    (Binary64.RunningSpentCalories (.num false 5.85) (.num false 1) (.num false 75)).geZero
        = true
      ∧ (Binary64.WalkingSpentCalories (.num false 5.85) (.num false 1) (.num false 75)
          (.num false 180)).geZero = true
      ∧ (Binary64.SwimmingSpentCalories (.num false 5.85) (.num false 1)
          (.num false 75)).geZero = true :=
  (calories_nonneg (.num false 5.85) (.num false 1) (.num false 75) (.num false 180) 9000
    (by decide!) (by decide!) (by decide!) (by decide!) (by norm_num)).2.2.2.1
    (by decide!) rfl (by decide!) rfl rfl

/-- Finite values on ordinary inputs: for speed, duration and weight between `0`
and `2 ^ 40` and a height of at least `2 ^ (-40)`, the three calorie formulas return a
finite number that is not negative, and so does `distance n` for `0 ≤ n ≤ 2 ^ 63`. -/
theorem calories_finite (s d w h : ℚ) (n : Int) (hs0 : 0 ≤ s) (hs : s ≤ 2 ^ 40)
    (hd0 : 0 ≤ d) (hd : d ≤ 2 ^ 40) (hw0 : 0 ≤ w) (hw : w ≤ 2 ^ 40)
    (hh : 1 / 2 ^ 40 ≤ h) (hn0 : 0 ≤ n) (hn : n ≤ 2 ^ 63) :
    (∃ c, Binary64.RunningSpentCalories (.num false s) (.num false d) (.num false w)
        = .num false c ∧ 0 ≤ c)
      ∧ (∃ c, Binary64.WalkingSpentCalories (.num false s) (.num false d) (.num false w)
          (.num false h) = .num false c ∧ 0 ≤ c)
      ∧ (∃ c, Binary64.SwimmingSpentCalories (.num false s) (.num false d) (.num false w)
          = .num false c ∧ 0 ≤ c)
      ∧ (∃ c, Binary64.distance n = .num false c ∧ 0 ≤ c) :=
  ⟨Binary64.running_bnd s d w hs0 hs hd0 hd hw0 hw,
    Binary64.walking_bnd s d w h hs0 hs hd0 hd hw0 hw hh,
    Binary64.swimming_bnd s d w hs0 hs hd0 hd hw0 hw,
    Binary64.distance_bnd n hn0 hn⟩

end Ftracker
